import Mathlib

/-!
Verification development for the Leave Entitlement and Approval Engine of the
smart-planning-calendar backend.  The definitions below are a shallow embedding
of `backend/app/leave_service.py` and of the leave endpoints plus review-permission
helper of `backend/app/main.py`.

Modelling conventions:
* A Python `date` is the triple `PDate` (year, month, day); Python compares dates
  lexicographically on these components, which `PDate.le` / `PDate.lt` mirror.
* Day-by-day iteration, `timedelta` steps and `datetime` comparisons are modelled
  through the rata-die day number `toZ` (days since 0000-12-31, proleptic
  Gregorian); for the valid dates produced by `datetime.date` this agrees with
  the chronological order used by Python.
* Leave events are stored by the application as all-day rows whose `start_ts` /
  `end_ts` are midnights with exclusive end (this is stated in the docstring of
  `_event_leave_days_within_window`), so event timestamps are modelled by their
  dates.
* Python `float` arithmetic on leave amounts is modelled by `ℚ`; `round(x, 2)`
  (banker rounding, round-half-to-even) is modelled by `pyround2`.
* Python integer `//` and `%` (floor division, nonnegative remainder for the
  positive divisors used here) are `Int.ediv` / `Int.emod`.
-/

namespace LeaveEngine

/-- Model of `datetime.date`: a (year, month, day) triple, compared the way
Python compares dates, i.e. lexicographically. -/
structure PDate where
  year : Int
  month : Int
  day : Int
deriving DecidableEq

/-- Python date ordering (strict): lexicographic on (year, month, day). -/
def PDate.lt (a b : PDate) : Prop :=
  a.year < b.year ∨ (a.year = b.year ∧ (a.month < b.month ∨ (a.month = b.month ∧ a.day < b.day)))

/-- Python date ordering (non-strict): lexicographic on (year, month, day). -/
def PDate.le (a b : PDate) : Prop :=
  a.year < b.year ∨ (a.year = b.year ∧ (a.month < b.month ∨ (a.month = b.month ∧ a.day ≤ b.day)))

instance (a b : PDate) : Decidable (PDate.lt a b) := by
  unfold PDate.lt; infer_instance

instance (a b : PDate) : Decidable (PDate.le a b) := by
  unfold PDate.le; infer_instance

/-- Gregorian leap-year test, as used by `datetime` and `calendar.isleap`. -/
def isLeapYear (y : Int) : Bool :=
  y % 4 == 0 && (y % 100 != 0 || y % 400 == 0)

/-- Number of days in a month of a given year (Gregorian). -/
def daysInMonth (y m : Int) : Int :=
  if m = 2 then (if isLeapYear y then 29 else 28)
  else if m = 4 ∨ m = 6 ∨ m = 9 ∨ m = 11 then 30
  else 31

/-- Validity of a (month, day) pair in a year: exactly the triples accepted by
the `datetime.date` constructor (the year range 1..9999 enforced by Python is
not modelled; all dates handled by the application are inside it). -/
def isValidYMD (y m d : Int) : Bool :=
  decide (1 ≤ m) && decide (m ≤ 12) && decide (1 ≤ d) && decide (d ≤ daysInMonth y m)

/-- Number of leap years in 1..y-1 (proleptic Gregorian). -/
def leapsBefore (y : Int) : Int :=
  Int.ediv (y - 1) 4 - Int.ediv (y - 1) 100 + Int.ediv (y - 1) 400

/-- Days before the first of month `m` in a year with leap flag `leap`. -/
def daysBeforeMonth (leap : Bool) (m : Int) : Int :=
  let x : Int := if leap then 1 else 0
  if m ≤ 1 then 0
  else if m = 2 then 31
  else if m = 3 then 59 + x
  else if m = 4 then 90 + x
  else if m = 5 then 120 + x
  else if m = 6 then 151 + x
  else if m = 7 then 181 + x
  else if m = 8 then 212 + x
  else if m = 9 then 243 + x
  else if m = 10 then 273 + x
  else if m = 11 then 304 + x
  else 334 + x

/-- Rata-die day number of a date: 0001-01-01 maps to 1.  This is the model of
chronological time used for `timedelta` arithmetic, `datetime` comparison and
day iteration. -/
def toZ (d : PDate) : Int :=
  365 * (d.year - 1) + leapsBefore d.year + daysBeforeMonth (isLeapYear d.year) d.month + d.day

/-- Inverse of `toZ` (civil-from-days, Hinnant algorithm with floor division). -/
def ofZ (z : Int) : PDate :=
  let zs := z + 305
  let era := Int.ediv zs 146097
  let doe := zs - era * 146097
  let yoe := Int.ediv (doe - Int.ediv doe 1460 + Int.ediv doe 36524 - Int.ediv doe 146096) 365
  let y := yoe + era * 400
  let doy := doe - (365 * yoe + Int.ediv yoe 4 - Int.ediv yoe 100)
  let mp := Int.ediv (5 * doy + 2) 153
  let d := doy - Int.ediv (153 * mp + 2) 5 + 1
  let m := mp + (if mp < 10 then 3 else -9)
  { year := y + (if m ≤ 2 then 1 else 0), month := m, day := d }

/-- Python `date.weekday()`: Monday = 0 .. Sunday = 6. -/
def pyWeekday (d : PDate) : Int :=
  (toZ d - 1) % 7

/-- Model of `d + timedelta(days=n)` (source helper `_add_days`). -/
def add_days (d : PDate) (n : Int) : PDate :=
  ofZ (toZ d + n)

/-- Source `_easter_sunday`: Gregorian Easter (Meeus/Jones/Butcher). -/
def easter_sunday (year : Int) : PDate :=
  let a := year % 19
  let b := Int.ediv year 100
  let c := year % 100
  let d := Int.ediv b 4
  let e := b % 4
  let f := Int.ediv (b + 8) 25
  let g := Int.ediv (b - f + 1) 3
  let h := (19 * a + b - d - g + 15) % 30
  let i := Int.ediv c 4
  let k := c % 4
  let l := (32 + 2 * e + 2 * i - h - k) % 7
  let m := Int.ediv (a + 11 * h + 22 * l) 451
  let month := Int.ediv (h + l - 7 * m + 114) 31
  let day := ((h + l - 7 * m + 114) % 31) + 1
  { year := year, month := month, day := day }

/-- Source `_kenya_islamic_holidays`: closed per-year lookup table (2025-2030). -/
def kenya_islamic_holidays (year : Int) : List PDate :=
  if year = 2025 then [⟨2025, 3, 31⟩, ⟨2025, 6, 6⟩]
  else if year = 2026 then [⟨2026, 3, 20⟩, ⟨2026, 5, 27⟩]
  else if year = 2027 then [⟨2027, 3, 10⟩, ⟨2027, 5, 17⟩]
  else if year = 2028 then [⟨2028, 2, 28⟩, ⟨2028, 5, 5⟩]
  else if year = 2029 then [⟨2029, 2, 16⟩, ⟨2029, 4, 24⟩]
  else if year = 2030 then [⟨2030, 2, 6⟩, ⟨2030, 4, 13⟩]
  else []

/-- Source `_kenya_public_holidays`: fixed dates, Easter-derived movable dates,
table lunar dates, and the Sunday-to-Monday observance additions.  The Python
sets are modelled as lists; only membership is ever used. -/
def kenya_public_holidays (year : Int) : List PDate :=
  let easter := easter_sunday year
  let fixed : List PDate :=
    [⟨year, 1, 1⟩, ⟨year, 5, 1⟩, ⟨year, 6, 1⟩, ⟨year, 10, 10⟩,
     ⟨year, 10, 20⟩, ⟨year, 12, 12⟩, ⟨year, 12, 25⟩, ⟨year, 12, 26⟩]
  let movable : List PDate := [add_days easter (-2), add_days easter 1]
  let holidays := fixed ++ movable ++ kenya_islamic_holidays year
  let observed := (holidays.filter (fun h => pyWeekday h == 6)).map (fun h => add_days h 1)
  holidays ++ observed

/-- Source `_is_chargeable_leave_day`: Sunday is non-working, Saturday works;
public holidays of the day own year are excluded. -/
def is_chargeable_leave_day (d : PDate) : Bool :=
  if pyWeekday d == 6 then false
  else if (kenya_public_holidays d.year).contains d then false
  else true

/-- Chargeability read on a day number. -/
def isChargeableZ (z : Int) : Bool :=
  is_chargeable_leave_day (ofZ z)

/-- Number of chargeable days among the `n` consecutive days starting at day
number `z`: the day-iteration loop of `_event_leave_days_within_window`. -/
def countChargeable (z : Int) : Nat → Nat
  | 0 => 0
  | n + 1 => (if isChargeableZ z then 1 else 0) + countChargeable (z + 1) n

/-- Chargeable days in the half-open day-number interval [lo, hi); empty when
hi is not after lo (the explicit zero branch of the source). -/
def countInterval (lo hi : Int) : Nat :=
  countChargeable lo (hi - lo).toNat

/-- Source `_event_leave_days_within_window`: chargeable days of the event date
span [s, ed) clamped to the window [ws, we), as a float. -/
def event_leave_days_within_window (s ed ws we : PDate) : ℚ :=
  ((countInterval (max (toZ s) (toZ ws)) (min (toZ ed) (toZ we)) : Nat) : ℚ)

/-- The inner helper `safe_date` of `_anniversary_on_or_before`: a clamped date
constructor, falling back to day 28 when the triple is not a real date (the
only realistic case is Feb 29 in a non-leap year). -/
def safe_date (y m day : Int) : PDate :=
  if isValidYMD y m day then ⟨y, m, day⟩ else ⟨y, m, 28⟩

/-- Source `_anniversary_on_or_before`: the hire-date anniversary in the year
of `d`, or the previous year when that anniversary is after `d`. -/
def anniversary_on_or_before (hire_date d : PDate) : PDate :=
  let ann := safe_date d.year hire_date.month hire_date.day
  if PDate.lt d ann then safe_date (d.year - 1) hire_date.month hire_date.day else ann

/-- Source `_add_year`: same month/day one year later, with Feb 29 clamped to
Feb 28. -/
def add_year (d : PDate) : PDate :=
  if isValidYMD (d.year + 1) d.month d.day then ⟨d.year + 1, d.month, d.day⟩
  else ⟨d.year + 1, d.month, 28⟩

/-- Source `_full_months_between`: completed months from `period_start` to
`as_of`, accruing on the day-of-month of the anchor. -/
def full_months_between (period_start as_of : PDate) : Int :=
  if PDate.lt as_of period_start then 0
  else
    let months := (as_of.year - period_start.year) * 12 + (as_of.month - period_start.month)
    max 0 (if as_of.day < period_start.day then months - 1 else months)

/-- Python `round(x, 2)` on exact values: round half to even at two decimals. -/
def roundHalfEven (q : ℚ) : Int :=
  let n := ⌊q⌋
  let f := q - (n : ℚ)
  if f < 1 / 2 then n
  else if 1 / 2 < f then n + 1
  else if n % 2 = 0 then n else n + 1

/-- Two-decimal rounding, the model of Python `round(x, 2)`. -/
def pyround2 (q : ℚ) : ℚ :=
  ((roundHalfEven (q * 100) : Int) : ℚ) / 100

/-- Source constant `ACCRUAL_RATE_PER_MONTH = 1.75`. -/
def ACCRUAL_RATE_PER_MONTH : ℚ := 175 / 100

/-- Source constant `ANNUAL_CAP = 21.0`. -/
def ANNUAL_CAP : ℚ := 21

/-- The fields of the `User` model that the leave engine reads.  Opening
amounts are optional columns read through `getattr(..., 0) or 0`. -/
structure UserRec where
  id : Int
  role : String
  hireDate : Option PDate
  createdAtDate : Option PDate
  leaveOpeningAsOf : Option PDate
  leaveOpeningAccrued : Option ℚ
  leaveOpeningUsed : Option ℚ
  firstApproverId : Option Int
  secondApproverId : Option Int
  requireTwoStepLeaveApproval : Bool
deriving DecidableEq

/-- The fields of the `Event` model that the leave engine reads or writes.
Leave rows are all-day with exclusive end, so `start_ts` / `end_ts` are
modelled by their dates; `approved_at` / `updated_at` timestamps are opaque
clock readings modelled as integers. -/
structure EventRec where
  id : Int
  userId : Int
  type : String
  status : String
  startDate : PDate
  endDate : PDate
  firstApprovedById : Option Int
  secondApprovedById : Option Int
  approvedById : Option Int
  approvedAt : Option Int
  rejectionReason : Option String
  updatedAt : Option Int
deriving DecidableEq

/-- Record-store lookup `db.query(User).filter(User.id == uid).first()`. -/
def findUser (db : List UserRec) (uid : Int) : Option UserRec :=
  db.find? (fun u => u.id == uid)

/-- Source `_is_admin_user` in main.py. -/
def is_admin_user (db : List UserRec) (uid : Option Int) : Bool :=
  match uid with
  | none => false
  | some i =>
    match findUser db i with
    | some u => u.role == "admin" || u.role == "ceo"
    | none => false

/-- Source `_is_supervisor_user` in main.py. -/
def is_supervisor_user (db : List UserRec) (uid : Option Int) : Bool :=
  match uid with
  | none => false
  | some i =>
    match findUser db i with
    | some u => u.role == "supervisor"
    | none => false

/-- ASCII whitespace recognised by the model of Python str.strip(). -/
def isSpaceChar (c : Char) : Bool :=
  c = ' ' ∨ c = '\t' ∨ c = '\n' ∨ c = '\x0d'

/-- Model of Python str.strip() (ASCII whitespace). -/
def pyStrip (s : String) : String :=
  ⟨(((s.data.dropWhile isSpaceChar).reverse.dropWhile isSpaceChar).reverse)⟩

/-- ASCII lower-casing of one character. -/
def charLower (c : Char) : Char :=
  if 65 ≤ c.toNat ∧ c.toNat ≤ 90 then Char.ofNat (c.toNat + 32) else c

/-- Model of Python str.lower() (ASCII). -/
def pyLower (s : String) : String :=
  ⟨s.data.map charLower⟩

/-- Source `_is_admin_like` in main.py (normalises before comparing). -/
def is_admin_like (role : String) : Bool :=
  let r := pyLower (pyStrip role)
  r == "admin" || r == "ceo"

/-- Source `_is_leave_like_event` in main.py (normalises before comparing). -/
def is_leave_like_type (t : String) : Bool :=
  let s := pyLower (pyStrip t)
  s == "leave" || s == "hospital"

/-- The exact-match type filter `Event.type.in_(["Leave", "Hospital"])` used by
the approve / reject / list endpoints. -/
def isExactLeaveType (t : String) : Bool :=
  t == "Leave" || t == "Hospital"

/-- Source `validate_leave_request` in leave_service.py: the only enforced
policy is a positive duration in days; returns true when valid. -/
def validate_leave_request (startDate endDate : PDate) : Bool :=
  decide (0 < toZ endDate - toZ startDate)

/-- Source `user.hire_date or (user.created_at.date() if user.created_at else as_of)`. -/
def hire_of (user : UserRec) (as_of : PDate) : PDate :=
  user.hireDate.getD (user.createdAtDate.getD as_of)

/-- Entitlement period start: most recent hire anniversary on or before `as_of`. -/
def period_start_of (user : UserRec) (as_of : PDate) : PDate :=
  anniversary_on_or_before (hire_of user as_of) as_of

/-- Entitlement period end: period start plus one year (clamped). -/
def period_end_of (user : UserRec) (as_of : PDate) : PDate :=
  add_year (period_start_of user as_of)

/-- Accrual anchor: the opening baseline date when it lies in
[period_start, as_of], else the period start. -/
def accrual_anchor_of (user : UserRec) (as_of : PDate) : PDate :=
  let ps := period_start_of user as_of
  match user.leaveOpeningAsOf with
  | some o => if PDate.le ps o ∧ PDate.le o as_of then o else ps
  | none => ps

/-- Usage window start: the opening baseline date when it lies in
[period_start, period_end), else the period start. -/
def usage_window_start_of (user : UserRec) (as_of : PDate) : PDate :=
  let ps := period_start_of user as_of
  match user.leaveOpeningAsOf with
  | some o => if PDate.le ps o ∧ PDate.lt o (period_end_of user as_of) then o else ps
  | none => ps

/-- The record-store query filter used by `compute_leave_balance`: approved
rows of type "Leave" owned by the user, starting before the period end and
ending after the usage window start, minus the optional excluded row. -/
def leaveQueryFilter (uid : Int) (pe ws : PDate) (excl : Option Int) (ev : EventRec) : Bool :=
  ev.userId == uid && ev.type == "Leave" && ev.status == "approved" &&
  decide (toZ ev.startDate < toZ pe) && decide (toZ ws < toZ ev.endDate) &&
  (match excl with
   | some i => ev.id != i
   | none => true)

/-- Derived balance snapshot, the `LeaveBalance` dataclass of the source. -/
structure LeaveBalance where
  user_id : Int
  as_of : PDate
  period_start : PDate
  period_end : PDate
  months_accrued : Int
  accrued : ℚ
  used : ℚ
  remaining : ℚ
deriving DecidableEq

/-- Source `compute_leave_balance`: the record store is abstracted by the list
of event rows handed to the query filter. -/
def compute_leave_balance (events : List EventRec) (user : UserRec) (as_of : PDate)
    (exclude_event_id : Option Int) : LeaveBalance :=
  let ps := period_start_of user as_of
  let pe := period_end_of user as_of
  let opening_accrued := user.leaveOpeningAccrued.getD 0
  let opening_used := user.leaveOpeningUsed.getD 0
  let months_accrued := full_months_between (accrual_anchor_of user as_of) as_of
  let accrued_since_anchor := pyround2 ((months_accrued : ℚ) * ACCRUAL_RATE_PER_MONTH)
  let accrued_since_anchor_capped := min ANNUAL_CAP accrued_since_anchor
  let accrued := pyround2 (opening_accrued + accrued_since_anchor_capped)
  let ws := usage_window_start_of user as_of
  let usedSum :=
    ((events.filter (leaveQueryFilter user.id pe ws exclude_event_id)).map
      (fun ev => event_leave_days_within_window ev.startDate ev.endDate ws pe)).sum
  let used := pyround2 (opening_used + usedSum)
  { user_id := user.id, as_of := as_of, period_start := ps, period_end := pe,
    months_accrued := months_accrued, accrued := accrued, used := used,
    remaining := pyround2 (accrued - used) }

/-- Error kinds raised by the approve / reject endpoints (HTTP details mapped
to the error taxonomy of the spec; `requestNotFound` is the 404 on the exact
type filter, `ownerNotFound` the 400 on a missing owner row). -/
inductive LeaveError where
  | requestNotFound
  | notPending
  | ownerNotFound
  | invalidApprovalSetup
  | notAuthorized
  | orderViolation
  | alreadyRecorded
  | invalidDuration
deriving DecidableEq

/-- The `designated_approvers` set built by the single-step paths: the first
approver when currently a supervisor, and the second approver when currently
an admin/ceo.  Modelled as a list; only membership and non-emptiness are used. -/
def designated_approvers (db : List UserRec) (fid sid : Option Int) : List Int :=
  (match fid with
   | some i => if is_supervisor_user db (some i) then [i] else []
   | none => []) ++
  (match sid with
   | some i => if is_admin_user db (some i) then [i] else []
   | none => [])

/-- Field assignment `e.first_approved_by_id = approver.id`. -/
def setFirstSlot (approver : UserRec) (e : EventRec) : EventRec :=
  { e with firstApprovedById := some approver.id }

/-- Field assignment `e.second_approved_by_id = approver.id`. -/
def setSecondSlot (approver : UserRec) (e : EventRec) : EventRec :=
  { e with secondApprovedById := some approver.id }

/-- The mutation block committing an approved transition: status, approver
identity, decision timestamp, cleared rejection reason. -/
def markApproved (approver : UserRec) (now : Int) (e : EventRec) : EventRec :=
  { e with status := "approved", approvedById := some approver.id, approvedAt := some now,
           rejectionReason := none }

/-- Field assignment `e.status = "pending"` (the explicit no-transition write
of the two-step partial approval). -/
def setStatusPending (e : EventRec) : EventRec :=
  { e with status := "pending" }

/-- Field assignment `e.updated_at = datetime.utcnow()`. -/
def setUpdatedAt (now : Int) (e : EventRec) : EventRec :=
  { e with updatedAt := some now }

/-- Source endpoint `approve_leave_request` (main.py).  The pair returned is
(outcome, state of the event record when the call exits): a `some` outcome is
the raised error, and the record component captures any field assignments made
before the raise, which is how the ORM object behaves inside the call.  The
`require_leave_approver` authentication dependency is out-of-scope middleware
and is not part of the engine model. -/
def approveLeaveRequest (db : List UserRec) (approver : UserRec) (e : EventRec)
    (now : Int) : Option LeaveError × EventRec :=
  if ¬ isExactLeaveType e.type then (some .requestNotFound, e)
  else if e.status ≠ "pending" then (some .notPending, e)
  else
    match findUser db e.userId with
    | none => (some .ownerNotFound, e)
    | some owner =>
      let fid := owner.firstApproverId
      let sid := owner.secondApproverId
      if owner.requireTwoStepLeaveApproval then
        if fid = none ∨ sid = none then (some .invalidApprovalSetup, e)
        else if ¬ is_supervisor_user db fid then (some .invalidApprovalSetup, e)
        else if ¬ is_admin_user db sid then (some .invalidApprovalSetup, e)
        else if ¬ (some approver.id = fid ∨ some approver.id = sid) then (some .notAuthorized, e)
        else if some approver.id = fid ∧ approver.role ≠ "supervisor" then (some .notAuthorized, e)
        else if some approver.id = sid ∧ ¬ is_admin_like approver.role then (some .notAuthorized, e)
        else if some approver.id = sid ∧ e.firstApprovedById = none then (some .orderViolation, e)
        else if some approver.id = fid ∧ e.firstApprovedById.isSome then (some .alreadyRecorded, e)
        else
          let e1 := if some approver.id = fid then setFirstSlot approver e else e
          if some approver.id = sid ∧ e1.secondApprovedById.isSome then (some .alreadyRecorded, e1)
          else
            let e2 := if some approver.id = sid then setSecondSlot approver e1 else e1
            if ¬ validate_leave_request e2.startDate e2.endDate then (some .invalidDuration, e2)
            else
              let e3 :=
                if e2.firstApprovedById.isSome ∧ e2.secondApprovedById.isSome then
                  markApproved approver now e2
                else setStatusPending e2
              (none, setUpdatedAt now e3)
      else
        let designated := designated_approvers db fid sid
        if designated ≠ [] ∧ ¬ designated.contains approver.id then (some .notAuthorized, e)
        else if designated ≠ [] ∧ some approver.id = fid ∧ approver.role ≠ "supervisor" then
          (some .notAuthorized, e)
        else if designated ≠ [] ∧ some approver.id = sid ∧ ¬ is_admin_like approver.role then
          (some .notAuthorized, e)
        else if ¬ validate_leave_request e.startDate e.endDate then (some .invalidDuration, e)
        else if designated ≠ [] ∧ ¬ designated.contains approver.id then (some .notAuthorized, e)
        else if designated = [] ∧ ¬ is_admin_like approver.role then (some .notAuthorized, e)
        else
          let e1 := markApproved approver now e
          let e2 := if e1.firstApprovedById = none then setFirstSlot approver e1 else e1
          let e3 := if e2.secondApprovedById = none then setSecondSlot approver e2 else e2
          (none, setUpdatedAt now e3)

/-- Source endpoint `reject_leave_request` (main.py).  Same conventions as
`approveLeaveRequest`.  Note that the two-step branch checks only membership
in the raw pair of approver ids plus the role of the acting user: it does not
re-validate the approval setup. -/
def rejectLeaveRequest (db : List UserRec) (approver : UserRec) (e : EventRec)
    (reason : Option String) (now : Int) : Option LeaveError × EventRec :=
  if ¬ isExactLeaveType e.type then (some .requestNotFound, e)
  else if e.status ≠ "pending" then (some .notPending, e)
  else
    match findUser db e.userId with
    | none => (some .ownerNotFound, e)
    | some owner =>
      let fid := owner.firstApproverId
      let sid := owner.secondApproverId
      let commit : Option LeaveError × EventRec :=
        (none,
         { e with status := "rejected", approvedById := some approver.id,
                  approvedAt := some now,
                  rejectionReason :=
                    some (let t := pyStrip (reason.getD "")
                          if t = "" then "Rejected by approver" else t),
                  updatedAt := some now })
      if owner.requireTwoStepLeaveApproval then
        if ¬ (some approver.id = fid ∨ some approver.id = sid) then (some .notAuthorized, e)
        else if some approver.id = fid ∧ approver.role ≠ "supervisor" then (some .notAuthorized, e)
        else if some approver.id = sid ∧ ¬ is_admin_like approver.role then (some .notAuthorized, e)
        else commit
      else
        let designated := designated_approvers db fid sid
        if designated ≠ [] ∧ ¬ designated.contains approver.id then (some .notAuthorized, e)
        else if designated ≠ [] ∧ some approver.id = fid ∧ approver.role ≠ "supervisor" then
          (some .notAuthorized, e)
        else if designated ≠ [] ∧ some approver.id = sid ∧ ¬ is_admin_like approver.role then
          (some .notAuthorized, e)
        else if designated = [] ∧ ¬ is_admin_like approver.role then (some .notAuthorized, e)
        else commit

/-- Source `_compute_leave_review_permissions` (main.py): the non-mutating
(can_approve, can_reject) pair for UI gating. -/
def computeLeaveReviewPermissions (db : List UserRec) (current : UserRec) (e : EventRec)
    (owner : UserRec) : Bool × Bool :=
  if ¬ is_leave_like_type e.type ∨ pyLower (pyStrip e.status) ≠ "pending" then (false, false)
  else
    let fid := owner.firstApproverId
    let sid := owner.secondApproverId
    if owner.requireTwoStepLeaveApproval then
      if fid = none ∨ sid = none then (false, false)
      else if ¬ is_supervisor_user db fid then (false, false)
      else if ¬ is_admin_user db sid then (false, false)
      else if some current.id = fid ∧ current.role = "supervisor" then
        (e.firstApprovedById.isNone, true)
      else if some current.id = sid ∧ is_admin_like current.role then
        (e.firstApprovedById.isSome && e.secondApprovedById.isNone, true)
      else (false, false)
    else
      let designated := designated_approvers db fid sid
      if designated ≠ [] then
        if ¬ designated.contains current.id then (false, false)
        else if some current.id = fid ∧ current.role ≠ "supervisor" then (false, false)
        else if some current.id = sid ∧ ¬ is_admin_like current.role then (false, false)
        else (true, true)
      else (is_admin_like current.role, is_admin_like current.role)

/-! ### Helper lemmas -/

theorem pdate_le_refl (a : PDate) : PDate.le a a := by
  unfold PDate.le; omega

theorem pdate_not_lt (a b : PDate) : ¬ PDate.lt a b → PDate.le b a := by
  unfold PDate.lt PDate.le; omega

theorem pdate_lt_le_asymm (a b : PDate) : PDate.lt a b → PDate.le b a → False := by
  unfold PDate.lt PDate.le; omega

theorem safe_date_year (y m d : Int) : (safe_date y m d).year = y := by
  unfold safe_date; split <;> rfl

theorem findUser_id (db : List UserRec) (i : Int) (u : UserRec)
    (h : findUser db i = some u) : u.id = i := by
  have hp := List.find?_some h
  simpa using hp

/-! ### Claims about the entitlement period resolver -/

/-- Claim C9: the entitlement period start returned by
`anniversary_on_or_before` is the most recent hire-date anniversary (same
month/day, with the Feb-29 clamp built into `safe_date`) on or before
`as_of`: it is at most `as_of`, it is the anniversary of its own year, and it
dominates every year-indexed anniversary lying on or before `as_of`; and on
the concrete clamp scenario, hire 2020-02-29 with as_of 2025-03-01 yields
period start 2025-02-28 and period end 2026-02-28. -/
theorem claim_C9 :
    (∀ hire as_of : PDate,
      PDate.le (anniversary_on_or_before hire as_of) as_of
      ∧ anniversary_on_or_before hire as_of
          = safe_date (anniversary_on_or_before hire as_of).year hire.month hire.day
      ∧ (∀ y : Int, PDate.le (safe_date y hire.month hire.day) as_of →
          PDate.le (safe_date y hire.month hire.day) (anniversary_on_or_before hire as_of)))
    ∧ anniversary_on_or_before ⟨2020, 2, 29⟩ ⟨2025, 3, 1⟩ = ⟨2025, 2, 28⟩
    ∧ add_year (anniversary_on_or_before ⟨2020, 2, 29⟩ ⟨2025, 3, 1⟩) = ⟨2026, 2, 28⟩ := by
  refine ⟨?_, by decide, by decide⟩
  intro hire as_of
  unfold anniversary_on_or_before
  by_cases h : PDate.lt as_of (safe_date as_of.year hire.month hire.day)
  · rw [if_pos h]
    refine ⟨?_, ?_, ?_⟩
    · have hy := safe_date_year (as_of.year - 1) hire.month hire.day
      unfold PDate.le; omega
    · rw [safe_date_year]
    · intro y hy
      have hys := safe_date_year y hire.month hire.day
      have hys2 := safe_date_year (as_of.year - 1) hire.month hire.day
      rcases lt_trichotomy y (as_of.year - 1) with hcmp | hcmp | hcmp
      · unfold PDate.le; omega
      · rw [hcmp]; exact pdate_le_refl _
      · exfalso
        rcases lt_trichotomy y as_of.year with hc2 | hc2 | hc2
        · omega
        · rw [hc2] at hy
          exact pdate_lt_le_asymm _ _ h hy
        · have := hy
          unfold PDate.le at this
          omega
  · rw [if_neg h]
    refine ⟨pdate_not_lt _ _ h, ?_, ?_⟩
    · rw [safe_date_year]
    · intro y hy
      have hys := safe_date_year y hire.month hire.day
      have hys2 := safe_date_year as_of.year hire.month hire.day
      rcases lt_trichotomy y as_of.year with hcmp | hcmp | hcmp
      · unfold PDate.le; omega
      · rw [hcmp]; exact pdate_le_refl _
      · exfalso
        have := hy
        unfold PDate.le at this
        omega

/-- Witness for claim C9: the maximality clause applied at a concrete hire
date, as_of and candidate year, with the hypothesis discharged by evaluation. -/
theorem claim_C9_witness :
    PDate.le (safe_date 2024 5 17) (anniversary_on_or_before ⟨2021, 5, 17⟩ ⟨2025, 6, 1⟩) :=
  (claim_C9.1 ⟨2021, 5, 17⟩ ⟨2025, 6, 1⟩).2.2 2024 (by decide)

/-! ### Holiday calendar -/

/-- Claim C8: the Meeus/Jones/Butcher computation yields Easter Sunday
2025-04-20, and the 2025 holiday calendar contains Good Friday 2025-04-18
(Easter minus two days) and Easter Monday 2025-04-21 (Easter plus one day). -/
theorem claim_C8 :
    easter_sunday 2025 = ⟨2025, 4, 20⟩
    ∧ add_days (easter_sunday 2025) (-2) = ⟨2025, 4, 18⟩
    ∧ add_days (easter_sunday 2025) 1 = ⟨2025, 4, 21⟩
    ∧ (⟨2025, 4, 18⟩ : PDate) ∈ kenya_public_holidays 2025
    ∧ (⟨2025, 4, 21⟩ : PDate) ∈ kenya_public_holidays 2025 := by
  refine ⟨by decide, by decide, by decide, ?_, ?_⟩ <;> decide

/-! ### Concrete scenario data used by witnesses and counterexamples -/

/-- A supervisor user, first approver in the two-step scenarios. -/
def userSup1 : UserRec := ⟨1, "supervisor", none, none, none, none, none, none, none, false⟩

/-- An admin user, second approver in the two-step scenarios. -/
def userAdm2 : UserRec := ⟨2, "admin", none, none, none, none, none, none, none, false⟩

/-- An employee with a valid two-step approval setup (first approver 1,
second approver 2). -/
def userOwn3 : UserRec :=
  ⟨3, "employee", some ⟨2024, 1, 1⟩, none, none, none, none, some 1, some 2, true⟩

/-- Record store for the valid two-step scenario. -/
def dbTwoStep : List UserRec := [userSup1, userAdm2, userOwn3]

/-- A fresh pending leave request of user 3 with a valid duration. -/
def evPending10 : EventRec :=
  ⟨10, 3, "Leave", "pending", ⟨2025, 6, 10⟩, ⟨2025, 6, 13⟩, none, none, none, none, none, none⟩

/-- A pending hospital request of user 3 whose duration is invalid (zero days):
reachable because the generic event-creation endpoint validates duration only
for type "Leave". -/
def evZeroDur11 : EventRec :=
  ⟨11, 3, "Hospital", "pending", ⟨2025, 6, 10⟩, ⟨2025, 6, 10⟩, none, none, none, none, none, none⟩

/-- An employee flagged for two-step approval whose first approver reference is
missing (invalid setup). -/
def userOwn4 : UserRec := ⟨4, "employee", none, none, none, none, none, none, some 2, true⟩

/-- Record store for the broken two-step setup scenario. -/
def dbBrokenSetup : List UserRec := [userSup1, userAdm2, userOwn4]

/-- A fresh pending leave request of user 4. -/
def evPending12 : EventRec :=
  ⟨12, 4, "Leave", "pending", ⟨2025, 6, 10⟩, ⟨2025, 6, 13⟩, none, none, none, none, none, none⟩

/-- An employee with no approver configuration, hired 2024-01-01. -/
def userEmp5 : UserRec :=
  ⟨5, "employee", some ⟨2024, 1, 1⟩, none, none, none, none, none, none, false⟩

/-- An approved hospital request of user 5 spanning the two chargeable days
2024-03-04 and 2024-03-05. -/
def evHospital20 : EventRec :=
  ⟨20, 5, "Hospital", "approved", ⟨2024, 3, 4⟩, ⟨2024, 3, 6⟩, none, none, none, none, none, none⟩

/-! ### Rejection postconditions -/

set_option maxHeartbeats 1000000 in
/-- Claim C10: every successful rejection leaves the record with status
rejected, the rejecting reviewer recorded in approved_by_id, the decision
timestamp in approved_at, and a non-empty rejection reason, defaulting to
"Rejected by approver" when the supplied reason is missing or whitespace. -/
theorem claim_C10 :
    ∀ (db : List UserRec) (approver : UserRec) (e : EventRec) (reason : Option String) (now : Int),
      (rejectLeaveRequest db approver e reason now).1 = none →
      (rejectLeaveRequest db approver e reason now).2.status = "rejected"
      ∧ (rejectLeaveRequest db approver e reason now).2.approvedById = some approver.id
      ∧ (rejectLeaveRequest db approver e reason now).2.approvedAt = some now
      ∧ ∃ r : String,
          (rejectLeaveRequest db approver e reason now).2.rejectionReason = some r
          ∧ r ≠ ""
          ∧ (pyStrip (reason.getD "") = "" → r = "Rejected by approver")
          ∧ (pyStrip (reason.getD "") ≠ "" → r = pyStrip (reason.getD "")) := by
  intro db approver e reason now h
  unfold rejectLeaveRequest at h ⊢
  rcases hfu : findUser db e.userId with _ | owner <;>
    try simp only [hfu] at h ⊢
  · split_ifs at h
  · try dsimp only at h ⊢
    split_ifs at h ⊢ <;> try simp at h
    all_goals
      refine ⟨rfl, rfl, rfl, ?_⟩
    all_goals
      first
        | exact ⟨"Rejected by approver", rfl, by decide, fun _ => rfl,
            fun hc => absurd (by assumption) hc⟩
        | exact ⟨pyStrip (reason.getD ""), rfl, by assumption, fun hc => absurd hc (by assumption),
            fun _ => rfl⟩

/-- Witness for claim C10: a concrete successful rejection with a whitespace
reason. -/
theorem claim_C10_witness :
    (rejectLeaveRequest dbTwoStep userSup1 evPending10 (some "  ") 5).2.status = "rejected"
    ∧ (rejectLeaveRequest dbTwoStep userSup1 evPending10 (some "  ") 5).2.approvedById = some userSup1.id
    ∧ (rejectLeaveRequest dbTwoStep userSup1 evPending10 (some "  ") 5).2.approvedAt = some 5
    ∧ ∃ r : String,
        (rejectLeaveRequest dbTwoStep userSup1 evPending10 (some "  ") 5).2.rejectionReason = some r
        ∧ r ≠ ""
        ∧ (pyStrip ((some "  " : Option String).getD "") = "" → r = "Rejected by approver")
        ∧ (pyStrip ((some "  " : Option String).getD "") ≠ "" → r = pyStrip ((some "  " : Option String).getD "")) :=
  claim_C10 dbTwoStep userSup1 evPending10 (some "  ") 5 (by decide)

/-! ### Window arithmetic -/

theorem countChargeable_add (z : Int) (m n : Nat) :
    countChargeable z (m + n) = countChargeable z m + countChargeable (z + (m : Int)) n := by
  induction m generalizing z with
  | zero => simp [countChargeable]
  | succ k ih =>
    have h1 : k + 1 + n = (k + n) + 1 := by omega
    rw [h1]
    simp only [countChargeable]
    rw [ih (z + 1)]
    have h2 : z + 1 + (k : Int) = z + ((k + 1 : Nat) : Int) := by push_cast; ring
    rw [h2]
    omega

theorem countInterval_zero (lo hi : Int) (h : hi ≤ lo) : countInterval lo hi = 0 := by
  unfold countInterval
  have hz : (hi - lo).toNat = 0 := by omega
  rw [hz]
  rfl

theorem countInterval_split (lo mid hi : Int) (h1 : lo ≤ mid) (h2 : mid ≤ hi) :
    countInterval lo mid + countInterval mid hi = countInterval lo hi := by
  unfold countInterval
  have e1 : (hi - lo).toNat = (mid - lo).toNat + (hi - mid).toNat := by omega
  rw [e1, countChargeable_add]
  have e2 : lo + ((mid - lo).toNat : Int) = mid := by omega
  rw [e2]

theorem chargeDays_window_split (sz ez az bz cz : Int) (hab : az ≤ bz) (hbc : bz ≤ cz) :
    countInterval (max sz az) (min ez bz) + countInterval (max sz bz) (min ez cz)
      = countInterval (max sz az) (min ez cz) := by
  rcases le_total ez bz with he | he
  · have hmin1 : min ez bz = ez := min_eq_left he
    have hmin2 : min ez cz = ez := min_eq_left (le_trans he hbc)
    have hnull : countInterval (max sz bz) ez = 0 :=
      countInterval_zero _ _ (le_trans he (le_max_right sz bz))
    rw [hmin1, hmin2, hnull]
    simp
  · rcases le_total bz sz with hs | hs
    · have hmax1 : max sz az = sz := max_eq_left (le_trans hab hs)
      have hmax2 : max sz bz = sz := max_eq_left hs
      have hnull : countInterval sz (min ez bz) = 0 :=
        countInterval_zero _ _ (le_trans (min_le_right ez bz) hs)
      rw [hmax1, hmax2, hnull]
      simp
    · have hmin1 : min ez bz = bz := min_eq_right he
      have hmax2 : max sz bz = bz := max_eq_right hs
      rw [hmin1, hmax2]
      exact countInterval_split _ _ _ (max_le hs hab) (le_min he hbc)

set_option maxHeartbeats 800000 in
/-- Claim C7: for every event span and every partition of a window into two
complementary half-open windows, the chargeable-day counts over the two parts
sum to the count over the whole window, per request and hence for the `used`
summation over any fixed request set. -/
theorem claim_C7 :
    ∀ s ed a b c : PDate, toZ a ≤ toZ b → toZ b ≤ toZ c →
      (event_leave_days_within_window s ed a b + event_leave_days_within_window s ed b c
        = event_leave_days_within_window s ed a c)
      ∧ ∀ evs : List EventRec,
          (evs.map (fun ev => event_leave_days_within_window ev.startDate ev.endDate a b)).sum
            + (evs.map (fun ev => event_leave_days_within_window ev.startDate ev.endDate b c)).sum
          = (evs.map (fun ev => event_leave_days_within_window ev.startDate ev.endDate a c)).sum := by
  intro s ed a b c hab hbc
  have hpt : ∀ u v : PDate,
      event_leave_days_within_window u v a b + event_leave_days_within_window u v b c
        = event_leave_days_within_window u v a c := by
    intro u v
    unfold event_leave_days_within_window
    rw [← Nat.cast_add, chargeDays_window_split (toZ u) (toZ v) (toZ a) (toZ b) (toZ c) hab hbc]
  refine ⟨hpt s ed, ?_⟩
  intro evs
  induction evs with
  | nil => simp
  | cons ev rest ih =>
    simp only [List.map_cons, List.sum_cons]
    rw [← hpt ev.startDate ev.endDate]
    linarith [ih]

/-- Witness for claim C7: a concrete span and partition, with both window
hypotheses discharged by evaluation. -/
theorem claim_C7_witness :
    event_leave_days_within_window ⟨2025, 6, 9⟩ ⟨2025, 6, 13⟩ ⟨2025, 6, 8⟩ ⟨2025, 6, 11⟩
      + event_leave_days_within_window ⟨2025, 6, 9⟩ ⟨2025, 6, 13⟩ ⟨2025, 6, 11⟩ ⟨2025, 6, 15⟩
      = event_leave_days_within_window ⟨2025, 6, 9⟩ ⟨2025, 6, 13⟩ ⟨2025, 6, 8⟩ ⟨2025, 6, 15⟩ :=
  (claim_C7 ⟨2025, 6, 9⟩ ⟨2025, 6, 13⟩ ⟨2025, 6, 8⟩ ⟨2025, 6, 11⟩ ⟨2025, 6, 15⟩
    (by decide) (by decide)).1

/-! ### Accrual arithmetic -/

theorem pyround2_cents (k : ℤ) : pyround2 ((k : ℚ) / 100) = (k : ℚ) / 100 := by
  have h100 : ((k : ℚ) / 100) * 100 = (k : ℚ) := by
    rw [div_mul_cancel₀]
    norm_num
  simp only [pyround2, roundHalfEven, h100, Int.floor_intCast, sub_self]
  norm_num

theorem intMin_div100 (a b : ℤ) :
    min ((a : ℚ) / 100) ((b : ℚ) / 100) = ((min a b : ℤ) : ℚ) / 100 := by
  rcases le_total a b with h | h
  · have hq : (a : ℚ) / 100 ≤ (b : ℚ) / 100 := by
      gcongr
      try exact_mod_cast h
    rw [min_eq_left hq, min_eq_left h]
  · have hq : (b : ℚ) / 100 ≤ (a : ℚ) / 100 := by
      gcongr
      try exact_mod_cast h
    rw [min_eq_right hq, min_eq_right h]

theorem daysInMonth_le_31 (y m : Int) : daysInMonth y m ≤ 31 := by
  unfold daysInMonth
  split_ifs <;> omega

theorem full_months_between_nonneg (ps a : PDate) : 0 ≤ full_months_between ps a := by
  unfold full_months_between
  split_ifs <;> simp [le_max_left]

theorem full_months_between_mono (anchor a1 a2 : PDate)
    (hv0 : isValidYMD anchor.year anchor.month anchor.day = true)
    (hv1 : isValidYMD a1.year a1.month a1.day = true)
    (hv2 : isValidYMD a2.year a2.month a2.day = true)
    (h12 : PDate.le a1 a2) :
    full_months_between anchor a1 ≤ full_months_between anchor a2 := by
  simp only [isValidYMD, Bool.and_eq_true, decide_eq_true_eq] at hv0 hv1 hv2
  obtain ⟨⟨⟨hm0a, hm0b⟩, hd0a⟩, hd0b⟩ := hv0
  obtain ⟨⟨⟨hm1a, hm1b⟩, hd1a⟩, hd1b⟩ := hv1
  obtain ⟨⟨⟨hm2a, hm2b⟩, hd2a⟩, hd2b⟩ := hv2
  have h310 : anchor.day ≤ 31 := le_trans hd0b (daysInMonth_le_31 _ _)
  have h311 : a1.day ≤ 31 := le_trans hd1b (daysInMonth_le_31 _ _)
  have h312 : a2.day ≤ 31 := le_trans hd2b (daysInMonth_le_31 _ _)
  unfold PDate.le at h12
  unfold full_months_between PDate.lt
  simp only [max_def]
  split_ifs <;> omega

/-- Claim C6: for a fixed accrual anchor and valid dates, the completed-month
count is non-decreasing in as_of and so is the rounded pre-cap accrual
`round(months * 1.75, 2)`; and for every employee whose opening accrued amount
is an exact two-decimal value (the invariant of all stored leave amounts), the
computed accrued never exceeds opening accrued plus the 21-day annual cap. -/
theorem claim_C6 :
    (∀ anchor a1 a2 : PDate,
      isValidYMD anchor.year anchor.month anchor.day = true →
      isValidYMD a1.year a1.month a1.day = true →
      isValidYMD a2.year a2.month a2.day = true →
      PDate.le a1 a2 →
        full_months_between anchor a1 ≤ full_months_between anchor a2
        ∧ pyround2 ((full_months_between anchor a1 : ℚ) * ACCRUAL_RATE_PER_MONTH)
            ≤ pyround2 ((full_months_between anchor a2 : ℚ) * ACCRUAL_RATE_PER_MONTH))
    ∧ (∀ (events : List EventRec) (user : UserRec) (as_of : PDate) (excl : Option Int) (k : ℤ),
        user.leaveOpeningAccrued.getD 0 = (k : ℚ) / 100 →
        (compute_leave_balance events user as_of excl).accrued
          ≤ user.leaveOpeningAccrued.getD 0 + ANNUAL_CAP) := by
  have hrate : ∀ m : Int, (m : ℚ) * ACCRUAL_RATE_PER_MONTH = ((175 * m : ℤ) : ℚ) / 100 := by
    intro m
    unfold ACCRUAL_RATE_PER_MONTH
    push_cast
    ring
  constructor
  · intro anchor a1 a2 hv0 hv1 hv2 h12
    have hmono := full_months_between_mono anchor a1 a2 hv0 hv1 hv2 h12
    refine ⟨hmono, ?_⟩
    rw [hrate, hrate, pyround2_cents, pyround2_cents]
    gcongr
  · intro events user as_of excl k hk
    have hm0 := full_months_between_nonneg (accrual_anchor_of user as_of) as_of
    simp only [compute_leave_balance]
    set m := full_months_between (accrual_anchor_of user as_of) as_of with hm
    have hcap : ANNUAL_CAP = ((2100 : ℤ) : ℚ) / 100 := by
      unfold ANNUAL_CAP
      norm_num
    rw [hrate, pyround2_cents, hcap, intMin_div100]
    have hsum : user.leaveOpeningAccrued.getD 0 + ((min 2100 (175 * m) : ℤ) : ℚ) / 100
        = ((k + min 2100 (175 * m) : ℤ) : ℚ) / 100 := by
      rw [hk]
      push_cast
      ring
    rw [hsum, pyround2_cents, hk, ← hcap, hcap]
    have hfin : ((k + min 2100 (175 * m) : ℤ) : ℚ) ≤ ((k + 2100 : ℤ) : ℚ) := by
      exact_mod_cast by omega
    calc ((k + min 2100 (175 * m) : ℤ) : ℚ) / 100 ≤ ((k + 2100 : ℤ) : ℚ) / 100 := by gcongr
    _ = (k : ℚ) / 100 + ((2100 : ℤ) : ℚ) / 100 := by push_cast; ring

/-- Witness for claim C6: monotonicity at concrete anchor and dates, and the
cap bound for a concrete employee, hypotheses discharged by evaluation. -/
theorem claim_C6_witness :
    full_months_between ⟨2024, 1, 15⟩ ⟨2024, 3, 1⟩ ≤ full_months_between ⟨2024, 1, 15⟩ ⟨2024, 6, 20⟩
    ∧ (compute_leave_balance [] userEmp5 ⟨2024, 6, 1⟩ none).accrued
        ≤ userEmp5.leaveOpeningAccrued.getD 0 + ANNUAL_CAP :=
  ⟨(claim_C6.1 ⟨2024, 1, 15⟩ ⟨2024, 3, 1⟩ ⟨2024, 6, 20⟩ (by decide) (by decide) (by decide)
      (by decide)).1,
   claim_C6.2 [] userEmp5 ⟨2024, 6, 1⟩ none 0 (by norm_num [userEmp5])⟩

/-! ### Usage summation (claim C1) -/

/-- The set of requests charged to the usage window according to the amended
reading of claim C1: approved rows of type "Leave" owned by the user,
overlapping the usage window, minus the optional excluded row.  Overlap of the
half-open spans is stated directly on the date ranges. -/
def chargedLeaveRequest (uid : Int) (ws pe : PDate) (excl : Option Int) (ev : EventRec) : Bool :=
  ev.userId == uid && ev.type == "Leave" && ev.status == "approved" &&
  decide (toZ ev.startDate < toZ pe ∧ toZ ws < toZ ev.endDate) &&
  (match excl with
   | some i => ev.id != i
   | none => true)

/-- Sum, over the charged requests of type "Leave", of the chargeable days in
the intersection of each request span with the usage window. -/
def specUsedLeave (events : List EventRec) (uid : Int) (ws pe : PDate)
    (excl : Option Int) : ℚ :=
  ((events.filter (chargedLeaveRequest uid ws pe excl)).map
    (fun ev => event_leave_days_within_window ev.startDate ev.endDate ws pe)).sum

/-- The charged-request predicate exactly as claim C1 words it: type "Leave"
or "Hospital".  This is the spec-side reading, kept separate because the
balance query of the source filters on type "Leave" only. -/
def chargedLeaveOrHospitalRequest (uid : Int) (ws pe : PDate) (excl : Option Int)
    (ev : EventRec) : Bool :=
  ev.userId == uid && (ev.type == "Leave" || ev.type == "Hospital") && ev.status == "approved" &&
  decide (toZ ev.startDate < toZ pe ∧ toZ ws < toZ ev.endDate) &&
  (match excl with
   | some i => ev.id != i
   | none => true)

/-- Spec-side usage sum as claim C1 words it (Leave or Hospital). -/
def specUsedLeaveOrHospital (events : List EventRec) (uid : Int) (ws pe : PDate)
    (excl : Option Int) : ℚ :=
  ((events.filter (chargedLeaveOrHospitalRequest uid ws pe excl)).map
    (fun ev => event_leave_days_within_window ev.startDate ev.endDate ws pe)).sum

theorem sum_map_days_natcast (l : List EventRec) (f : EventRec → ℕ) :
    ∃ N : ℕ, (l.map (fun ev => ((f ev : ℕ) : ℚ))).sum = (N : ℚ) := by
  induction l with
  | nil => exact ⟨0, by simp⟩
  | cons x xs ih =>
    rcases ih with ⟨N, hN⟩
    exact ⟨f x + N, by simp [hN]⟩

/-- Counterexample to claim C1 as stated: an approved Hospital request lying
inside the usage window contributes two chargeable days to the claimed
Leave-or-Hospital sum, but the balance query of the source counts only rows of
type "Leave", so the computed `used` stays zero. -/
theorem claim_C1_counterexample :
    ¬ ((compute_leave_balance [evHospital20] userEmp5 ⟨2024, 6, 1⟩ none).used
        = userEmp5.leaveOpeningUsed.getD 0
          + specUsedLeaveOrHospital [evHospital20] userEmp5.id
              (usage_window_start_of userEmp5 ⟨2024, 6, 1⟩)
              (period_end_of userEmp5 ⟨2024, 6, 1⟩) none) := by
  have hzero : pyround2 ((0 : ℚ) + 0) = 0 := by
    have h := pyround2_cents 0
    norm_num at h
    simpa using h
  have hL : (compute_leave_balance [evHospital20] userEmp5 ⟨2024, 6, 1⟩ none).used = 0 := by
    have hf : leaveQueryFilter userEmp5.id (period_end_of userEmp5 ⟨2024, 6, 1⟩)
        (usage_window_start_of userEmp5 ⟨2024, 6, 1⟩) none evHospital20 = false := by decide
    simp only [compute_leave_balance, List.filter, hf, List.map_nil, List.sum_nil]
    simpa [userEmp5] using hzero
  have hcount : countInterval
      (max (toZ evHospital20.startDate) (toZ (usage_window_start_of userEmp5 ⟨2024, 6, 1⟩)))
      (min (toZ evHospital20.endDate) (toZ (period_end_of userEmp5 ⟨2024, 6, 1⟩))) = 2 := by
    decide
  have hR : specUsedLeaveOrHospital [evHospital20] userEmp5.id
      (usage_window_start_of userEmp5 ⟨2024, 6, 1⟩)
      (period_end_of userEmp5 ⟨2024, 6, 1⟩) none = 2 := by
    have hf : chargedLeaveOrHospitalRequest userEmp5.id
        (usage_window_start_of userEmp5 ⟨2024, 6, 1⟩)
        (period_end_of userEmp5 ⟨2024, 6, 1⟩) none evHospital20 = true := by decide
    simp only [specUsedLeaveOrHospital, List.filter, hf, List.map_cons, List.map_nil,
      List.sum_cons, List.sum_nil, event_leave_days_within_window, hcount]
    norm_num
  intro hEq
  rw [hL, hR] at hEq
  simp [userEmp5] at hEq

/-- Claim C1 (amended: the summed requests are those of type "Leave" only):
for every employee whose opening used amount is an exact two-decimal value,
the `used` component of the computed balance equals opening used plus the sum
over approved, overlapping, non-excluded "Leave" requests of the chargeable
days in the intersection of each request span with the usage window. -/
theorem claim_C1_amended :
    ∀ (events : List EventRec) (user : UserRec) (as_of : PDate) (excl : Option Int) (k : ℤ),
      user.leaveOpeningUsed.getD 0 = (k : ℚ) / 100 →
      (compute_leave_balance events user as_of excl).used
        = user.leaveOpeningUsed.getD 0
          + specUsedLeave events user.id (usage_window_start_of user as_of)
              (period_end_of user as_of) excl := by
  intro events user as_of excl k hk
  have hfilter :
      chargedLeaveRequest user.id (usage_window_start_of user as_of)
          (period_end_of user as_of) excl
        = leaveQueryFilter user.id (period_end_of user as_of)
            (usage_window_start_of user as_of) excl := by
    funext ev
    simp only [chargedLeaveRequest, leaveQueryFilter, Bool.decide_and, Bool.and_assoc]
  unfold specUsedLeave
  rw [hfilter]
  simp only [compute_leave_balance, event_leave_days_within_window]
  rcases sum_map_days_natcast
      (events.filter (leaveQueryFilter user.id (period_end_of user as_of)
        (usage_window_start_of user as_of) excl))
      (fun ev => countInterval
        (max (toZ ev.startDate) (toZ (usage_window_start_of user as_of)))
        (min (toZ ev.endDate) (toZ (period_end_of user as_of)))) with ⟨N, hN⟩
  rw [hN, hk]
  have hrepr : (k : ℚ) / 100 + (N : ℚ) = ((k + 100 * N : ℤ) : ℚ) / 100 := by
    push_cast
    ring
  rw [hrepr, pyround2_cents, ← hrepr]

/-- Witness for the amended claim C1: a concrete employee with no opening
amounts, evaluated with an empty exclusion. -/
theorem claim_C1_amended_witness :
    (compute_leave_balance [evHospital20] userEmp5 ⟨2024, 6, 1⟩ none).used
      = userEmp5.leaveOpeningUsed.getD 0
        + specUsedLeave [evHospital20] userEmp5.id
            (usage_window_start_of userEmp5 ⟨2024, 6, 1⟩)
            (period_end_of userEmp5 ⟨2024, 6, 1⟩) none :=
  claim_C1_amended [evHospital20] userEmp5 ⟨2024, 6, 1⟩ none 0 (by norm_num [userEmp5])

/-! ### Terminal state machine (claim C5) -/

/-- A successful approve call leaves the record status pending or approved. -/
theorem approve_ok_status : ∀ (db : List UserRec) (a : UserRec) (e : EventRec) (now : Int),
    isExactLeaveType e.type = true → e.status = "pending" →
    (approveLeaveRequest db a e now).1 = none →
    ((approveLeaveRequest db a e now).2.status = "pending"
        ∨ (approveLeaveRequest db a e now).2.status = "approved") := by
  intro db a e now h1 h2 h
  rcases hres : approveLeaveRequest db a e now with ⟨out, e2⟩
  rw [hres] at h
  replace h : out = none := h
  subst h
  show e2.status = "pending" ∨ e2.status = "approved"
  unfold approveLeaveRequest at hres
  rcases hfu : findUser db e.userId with _ | owner <;>
    try simp only [hfu] at hres
  · split_ifs at hres <;>
      (injection hres with ha hb; exact Option.noConfusion ha)
  · try dsimp only at hres
    rw [if_neg (not_not_intro h1), if_neg (not_not_intro h2)] at hres
    by_cases ht : owner.requireTwoStepLeaveApproval = true
    · rw [if_pos ht] at hres
      set E1 := (if some a.id = owner.firstApproverId then setFirstSlot a e else e) with hE1
      set E2 := (if some a.id = owner.secondApproverId then setSecondSlot a E1 else E1) with hE2
      by_cases c1 : owner.firstApproverId = none ∨ owner.secondApproverId = none
      · rw [if_pos c1] at hres
        injection hres with ha hb
        exact Option.noConfusion ha
      · rw [if_neg c1] at hres
        by_cases c2 : ¬ is_supervisor_user db owner.firstApproverId = true
        · rw [if_pos c2] at hres
          injection hres with ha hb
          exact Option.noConfusion ha
        · rw [if_neg c2] at hres
          by_cases c3 : ¬ is_admin_user db owner.secondApproverId = true
          · rw [if_pos c3] at hres
            injection hres with ha hb
            exact Option.noConfusion ha
          · rw [if_neg c3] at hres
            by_cases c4 : ¬ (some a.id = owner.firstApproverId ∨ some a.id = owner.secondApproverId)
            · rw [if_pos c4] at hres
              injection hres with ha hb
              exact Option.noConfusion ha
            · rw [if_neg c4] at hres
              by_cases c5 : some a.id = owner.firstApproverId ∧ a.role ≠ "supervisor"
              · rw [if_pos c5] at hres
                injection hres with ha hb
                exact Option.noConfusion ha
              · rw [if_neg c5] at hres
                by_cases c6 : some a.id = owner.secondApproverId ∧ ¬ is_admin_like a.role = true
                · rw [if_pos c6] at hres
                  injection hres with ha hb
                  exact Option.noConfusion ha
                · rw [if_neg c6] at hres
                  by_cases c7 : some a.id = owner.secondApproverId ∧ e.firstApprovedById = none
                  · rw [if_pos c7] at hres
                    injection hres with ha hb
                    exact Option.noConfusion ha
                  · rw [if_neg c7] at hres
                    by_cases c8 : some a.id = owner.firstApproverId ∧ e.firstApprovedById.isSome = true
                    · rw [if_pos c8] at hres
                      injection hres with ha hb
                      exact Option.noConfusion ha
                    · rw [if_neg c8] at hres
                      by_cases c9 : some a.id = owner.secondApproverId ∧ E1.secondApprovedById.isSome = true
                      · rw [if_pos c9] at hres
                        injection hres with ha hb
                        exact Option.noConfusion ha
                      · rw [if_neg c9] at hres
                        by_cases c10 : ¬ validate_leave_request E2.startDate E2.endDate = true
                        · rw [if_pos c10] at hres
                          injection hres with ha hb
                          exact Option.noConfusion ha
                        · rw [if_neg c10] at hres
                          by_cases c11 : E2.firstApprovedById.isSome = true ∧ E2.secondApprovedById.isSome = true
                          · rw [if_pos c11] at hres
                            injection hres with ha hb
                            rw [← hb]
                            exact Or.inr rfl
                          · rw [if_neg c11] at hres
                            injection hres with ha hb
                            rw [← hb]
                            exact Or.inl rfl
    · rw [if_neg ht] at hres
      set F1 := markApproved a now e with hF1
      set F2 := (if F1.firstApprovedById = none then setFirstSlot a F1 else F1) with hF2
      set F3 := (if F2.secondApprovedById = none then setSecondSlot a F2 else F2) with hF3
      set D := designated_approvers db owner.firstApproverId owner.secondApproverId with hD
      by_cases c1 : D ≠ [] ∧ ¬ D.contains a.id = true
      · rw [if_pos c1] at hres
        injection hres with ha hb
        exact Option.noConfusion ha
      · rw [if_neg c1] at hres
        by_cases c2 : D ≠ [] ∧ some a.id = owner.firstApproverId ∧ a.role ≠ "supervisor"
        · rw [if_pos c2] at hres
          injection hres with ha hb
          exact Option.noConfusion ha
        · rw [if_neg c2] at hres
          by_cases c3 : D ≠ [] ∧ some a.id = owner.secondApproverId ∧ ¬ is_admin_like a.role = true
          · rw [if_pos c3] at hres
            injection hres with ha hb
            exact Option.noConfusion ha
          · rw [if_neg c3] at hres
            by_cases c4 : ¬ validate_leave_request e.startDate e.endDate = true
            · rw [if_pos c4] at hres
              injection hres with ha hb
              exact Option.noConfusion ha
            · rw [if_neg c4] at hres
              by_cases c5 : D ≠ [] ∧ ¬ D.contains a.id = true
              · rw [if_pos c5] at hres
                injection hres with ha hb
                exact Option.noConfusion ha
              · rw [if_neg c5] at hres
                by_cases c6 : D = [] ∧ ¬ is_admin_like a.role = true
                · rw [if_pos c6] at hres
                  injection hres with ha hb
                  exact Option.noConfusion ha
                · rw [if_neg c6] at hres
                  injection hres with ha hb
                  rw [← hb, hF3]
                  refine Or.inr ?_
                  split
                  · rw [hF2]
                    split <;> rfl
                  · rw [hF2]
                    split <;> rfl


set_option maxHeartbeats 1000000 in
/-- Claim C5: status is a terminal state machine.  Approve or reject on a
non-pending leave-type request fails NotPending and returns the record
unchanged; a successful approve starts from pending and ends pending or
approved; a successful reject starts from pending and ends rejected; and after
any successful rejection every later approve or reject attempt (in particular
by the second approver after the first rejects) fails NotPending. -/
theorem claim_C5 :
    (∀ (db : List UserRec) (a : UserRec) (e : EventRec) (now : Int),
        isExactLeaveType e.type = true → e.status ≠ "pending" →
        approveLeaveRequest db a e now = (some .notPending, e))
    ∧ (∀ (db : List UserRec) (a : UserRec) (e : EventRec) (r : Option String) (now : Int),
        isExactLeaveType e.type = true → e.status ≠ "pending" →
        rejectLeaveRequest db a e r now = (some .notPending, e))
    ∧ (∀ (db : List UserRec) (a : UserRec) (e : EventRec) (now : Int),
        (approveLeaveRequest db a e now).1 = none →
        e.status = "pending"
        ∧ ((approveLeaveRequest db a e now).2.status = "pending"
            ∨ (approveLeaveRequest db a e now).2.status = "approved"))
    ∧ (∀ (db : List UserRec) (a : UserRec) (e : EventRec) (r : Option String) (now : Int),
        (rejectLeaveRequest db a e r now).1 = none →
        e.status = "pending" ∧ (rejectLeaveRequest db a e r now).2.status = "rejected")
    ∧ (∀ (db : List UserRec) (a1 a2 : UserRec) (e : EventRec) (r1 r2 : Option String)
          (now1 now2 : Int),
        (rejectLeaveRequest db a1 e r1 now1).1 = none →
        (approveLeaveRequest db a2 (rejectLeaveRequest db a1 e r1 now1).2 now2).1
            = some .notPending
        ∧ (rejectLeaveRequest db a2 (rejectLeaveRequest db a1 e r1 now1).2 r2 now2).1
            = some .notPending) := by
  have hANP : ∀ (db : List UserRec) (a : UserRec) (e : EventRec) (now : Int),
      isExactLeaveType e.type = true → e.status ≠ "pending" →
      approveLeaveRequest db a e now = (some .notPending, e) := by
    intro db a e now h1 h2
    simp [approveLeaveRequest, h1, h2]
  have hRNP : ∀ (db : List UserRec) (a : UserRec) (e : EventRec) (r : Option String) (now : Int),
      isExactLeaveType e.type = true → e.status ≠ "pending" →
      rejectLeaveRequest db a e r now = (some .notPending, e) := by
    intro db a e r now h1 h2
    simp [rejectLeaveRequest, h1, h2]
  have hRShape : ∀ (db : List UserRec) (a : UserRec) (e : EventRec) (r : Option String) (now : Int),
      (rejectLeaveRequest db a e r now).1 = none →
      isExactLeaveType e.type = true ∧ e.status = "pending"
      ∧ (rejectLeaveRequest db a e r now).2.status = "rejected"
      ∧ (rejectLeaveRequest db a e r now).2.type = e.type := by
    intro db a e r now h
    by_cases h1 : isExactLeaveType e.type
    · by_cases h2 : e.status = "pending"
      · refine ⟨h1, h2, ?_⟩
        unfold rejectLeaveRequest at h ⊢
        rcases hfu : findUser db e.userId with _ | owner <;>
          try simp only [hfu] at h ⊢
        · split_ifs at h
        · try dsimp only at h ⊢
          split_ifs at h ⊢ <;> try simp at h
          all_goals exact ⟨rfl, rfl⟩
      · rw [hRNP db a e r now h1 h2] at h
        simp at h
    · simp [rejectLeaveRequest, h1] at h
  have hAOk : ∀ (db : List UserRec) (a : UserRec) (e : EventRec) (now : Int),
      (approveLeaveRequest db a e now).1 = none →
      e.status = "pending"
      ∧ ((approveLeaveRequest db a e now).2.status = "pending"
          ∨ (approveLeaveRequest db a e now).2.status = "approved") := by
    intro db a e now h
    by_cases h1 : isExactLeaveType e.type
    · by_cases h2 : e.status = "pending"
      · exact ⟨h2, approve_ok_status db a e now h1 h2 h⟩
      · rw [hANP db a e now h1 h2] at h
        simp at h
    · simp [approveLeaveRequest, h1] at h
  refine ⟨hANP, hRNP, hAOk, ?_, ?_⟩
  · intro db a e r now h
    obtain ⟨h1, h2, h3, h4⟩ := hRShape db a e r now h
    exact ⟨h2, h3⟩
  · intro db a1 a2 e r1 r2 now1 now2 h
    obtain ⟨h1, h2, h3, h4⟩ := hRShape db a1 e r1 now1 h
    have ht2 : isExactLeaveType (rejectLeaveRequest db a1 e r1 now1).2.type = true := by
      rw [h4]
      exact h1
    have hns : (rejectLeaveRequest db a1 e r1 now1).2.status ≠ "pending" := by
      rw [h3]
      decide
    constructor
    · rw [hANP db a2 ((rejectLeaveRequest db a1 e r1 now1).2) now2 ht2 hns]
    · rw [hRNP db a2 ((rejectLeaveRequest db a1 e r1 now1).2) r2 now2 ht2 hns]

/-- Witness for claim C5: concrete NotPending failure on an already approved
request, and a concrete rejection short-circuit. -/
theorem claim_C5_witness :
    approveLeaveRequest dbTwoStep userAdm2 evHospital20 0 = (some .notPending, evHospital20)
    ∧ (approveLeaveRequest dbTwoStep userAdm2
        (rejectLeaveRequest dbTwoStep userSup1 evPending10 none 1).2 2).1 = some .notPending :=
  ⟨claim_C5.1 dbTwoStep userAdm2 evHospital20 0 (by decide) (by decide),
   (claim_C5.2.2.2.2 dbTwoStep userSup1 userAdm2 evPending10 none none 1 2 (by decide)).1⟩

theorem supervisor_not_admin (db : List UserRec) (x : Option Int) :
    is_supervisor_user db x = true → is_admin_user db x = true → False := by
  intro h1 h2
  cases x with
  | none => simp [is_supervisor_user] at h1
  | some i =>
    rcases hfu : findUser db i with _ | u
    · simp [is_supervisor_user, hfu] at h1
    · simp [is_supervisor_user, hfu] at h1
      simp [is_admin_user, hfu] at h2
      rcases h2 with h2 | h2 <;> rw [h1] at h2 <;> exact absurd h2 (by decide)

/-! ### All-or-nothing mutation (claim C2) -/

/-- Counterexample to claim C2 as stated: in two-step mode the first approval
slot is assigned before duration validation runs, so approving a pending
zero-duration request raises InvalidDuration after the record was already
mutated. -/
theorem claim_C2_counterexample :
    (approveLeaveRequest dbTwoStep userSup1 evZeroDur11 0).1 = some .invalidDuration
    ∧ (approveLeaveRequest dbTwoStep userSup1 evZeroDur11 0).2 ≠ evZeroDur11 := by
  constructor <;> decide

/-- Claim C2 (amended): on any error the approve and reject calls leave the
record unchanged, except that an InvalidDuration error on the approve path can
leave the acting approver slot newly recorded, because the two-step branch
assigns the slot before duration validation; every other precondition is
checked before any field assignment, and the reject path never mutates before
an error. -/
theorem claim_C2_amended :
    ∀ (db : List UserRec) (approver : UserRec) (e : EventRec) (reason : Option String)
      (now : Int) (err : LeaveError),
      ((approveLeaveRequest db approver e now).1 = some err →
        (approveLeaveRequest db approver e now).2 = e
        ∨ (err = .invalidDuration
           ∧ ((approveLeaveRequest db approver e now).2 = setFirstSlot approver e
              ∨ (approveLeaveRequest db approver e now).2 = setSecondSlot approver e
              ∨ (approveLeaveRequest db approver e now).2
                  = setSecondSlot approver (setFirstSlot approver e))))
      ∧ ((rejectLeaveRequest db approver e reason now).1 = some err →
        (rejectLeaveRequest db approver e reason now).2 = e) := by
  intro db a e reason now err
  constructor
  · intro h
    rcases hres : approveLeaveRequest db a e now with ⟨out, e2⟩
    rw [hres] at h
    replace h : out = some err := h
    subst h
    show e2 = e ∨ _
    unfold approveLeaveRequest at hres
    rcases hfu : findUser db e.userId with _ | owner <;>
      try simp only [hfu] at hres
    · split_ifs at hres <;> (injection hres with ha hb; exact Or.inl hb.symm)
    · try dsimp only at hres
      by_cases h1 : ¬ isExactLeaveType e.type = true
      · rw [if_pos h1] at hres
        injection hres with ha hb
        exact Or.inl hb.symm
      · rw [if_neg h1] at hres
        by_cases h2 : e.status ≠ "pending"
        · rw [if_pos h2] at hres
          injection hres with ha hb
          exact Or.inl hb.symm
        · rw [if_neg h2] at hres
          by_cases ht : owner.requireTwoStepLeaveApproval = true
          · rw [if_pos ht] at hres
            set E1 := (if some a.id = owner.firstApproverId then setFirstSlot a e else e) with hE1
            set E2 := (if some a.id = owner.secondApproverId then setSecondSlot a E1 else E1) with hE2
            by_cases c1 : owner.firstApproverId = none ∨ owner.secondApproverId = none
            · rw [if_pos c1] at hres
              injection hres with ha hb
              exact Or.inl hb.symm
            · rw [if_neg c1] at hres
              by_cases c2 : ¬ is_supervisor_user db owner.firstApproverId = true
              · rw [if_pos c2] at hres
                injection hres with ha hb
                exact Or.inl hb.symm
              · rw [if_neg c2] at hres
                by_cases c3 : ¬ is_admin_user db owner.secondApproverId = true
                · rw [if_pos c3] at hres
                  injection hres with ha hb
                  exact Or.inl hb.symm
                · rw [if_neg c3] at hres
                  by_cases c4 : ¬ (some a.id = owner.firstApproverId ∨ some a.id = owner.secondApproverId)
                  · rw [if_pos c4] at hres
                    injection hres with ha hb
                    exact Or.inl hb.symm
                  · rw [if_neg c4] at hres
                    by_cases c5 : some a.id = owner.firstApproverId ∧ a.role ≠ "supervisor"
                    · rw [if_pos c5] at hres
                      injection hres with ha hb
                      exact Or.inl hb.symm
                    · rw [if_neg c5] at hres
                      by_cases c6 : some a.id = owner.secondApproverId ∧ ¬ is_admin_like a.role = true
                      · rw [if_pos c6] at hres
                        injection hres with ha hb
                        exact Or.inl hb.symm
                      · rw [if_neg c6] at hres
                        by_cases c7 : some a.id = owner.secondApproverId ∧ e.firstApprovedById = none
                        · rw [if_pos c7] at hres
                          injection hres with ha hb
                          exact Or.inl hb.symm
                        · rw [if_neg c7] at hres
                          by_cases c8 : some a.id = owner.firstApproverId ∧ e.firstApprovedById.isSome = true
                          · rw [if_pos c8] at hres
                            injection hres with ha hb
                            exact Or.inl hb.symm
                          · rw [if_neg c8] at hres
                            by_cases c9 : some a.id = owner.secondApproverId ∧ E1.secondApprovedById.isSome = true
                            · rw [if_pos c9] at hres
                              injection hres with ha hb
                              rw [← hb, hE1]
                              have hsup : is_supervisor_user db owner.firstApproverId = true :=
                                not_not.mp c2
                              have hadm : is_admin_user db owner.secondApproverId = true :=
                                not_not.mp c3
                              have hcfid : ¬ some a.id = owner.firstApproverId := by
                                intro hfid
                                have heq : owner.firstApproverId = owner.secondApproverId := by
                                  rw [← hfid, ← c9.1]
                                have hadm2 : is_admin_user db owner.firstApproverId = true := by
                                  rw [heq]
                                  exact hadm
                                exact supervisor_not_admin db owner.firstApproverId hsup hadm2
                              rw [if_neg hcfid]
                              exact Or.inl rfl
                            · rw [if_neg c9] at hres
                              by_cases c10 : ¬ validate_leave_request E2.startDate E2.endDate = true
                              · rw [if_pos c10] at hres
                                injection hres with ha hb
                                have herr : err = .invalidDuration := (Option.some.inj ha).symm
                                rw [← hb, hE2]
                                by_cases csid : some a.id = owner.secondApproverId
                                · rw [if_pos csid, hE1]
                                  by_cases cfid : some a.id = owner.firstApproverId
                                  · rw [if_pos cfid]
                                    exact Or.inr ⟨herr, Or.inr (Or.inr rfl)⟩
                                  · rw [if_neg cfid]
                                    exact Or.inr ⟨herr, Or.inr (Or.inl rfl)⟩
                                · rw [if_neg csid, hE1]
                                  by_cases cfid : some a.id = owner.firstApproverId
                                  · rw [if_pos cfid]
                                    exact Or.inr ⟨herr, Or.inl rfl⟩
                                  · rw [if_neg cfid]
                                    exact Or.inl rfl
                              · rw [if_neg c10] at hres
                                injection hres with ha hb
                                exact Option.noConfusion ha
          · rw [if_neg ht] at hres
            set D := designated_approvers db owner.firstApproverId owner.secondApproverId with hD
            by_cases c1 : D ≠ [] ∧ ¬ D.contains a.id = true
            · rw [if_pos c1] at hres
              injection hres with ha hb
              exact Or.inl hb.symm
            · rw [if_neg c1] at hres
              by_cases c2 : D ≠ [] ∧ some a.id = owner.firstApproverId ∧ a.role ≠ "supervisor"
              · rw [if_pos c2] at hres
                injection hres with ha hb
                exact Or.inl hb.symm
              · rw [if_neg c2] at hres
                by_cases c3 : D ≠ [] ∧ some a.id = owner.secondApproverId ∧ ¬ is_admin_like a.role = true
                · rw [if_pos c3] at hres
                  injection hres with ha hb
                  exact Or.inl hb.symm
                · rw [if_neg c3] at hres
                  by_cases c4 : ¬ validate_leave_request e.startDate e.endDate = true
                  · rw [if_pos c4] at hres
                    injection hres with ha hb
                    exact Or.inl hb.symm
                  · rw [if_neg c4] at hres
                    by_cases c5 : D ≠ [] ∧ ¬ D.contains a.id = true
                    · rw [if_pos c5] at hres
                      injection hres with ha hb
                      exact Or.inl hb.symm
                    · rw [if_neg c5] at hres
                      by_cases c6 : D = [] ∧ ¬ is_admin_like a.role = true
                      · rw [if_pos c6] at hres
                        injection hres with ha hb
                        exact Or.inl hb.symm
                      · rw [if_neg c6] at hres
                        injection hres with ha hb
                        exact Option.noConfusion ha
  · intro h
    rcases hres : rejectLeaveRequest db a e reason now with ⟨out, e2⟩
    rw [hres] at h
    replace h : out = some err := h
    subst h
    show e2 = e
    unfold rejectLeaveRequest at hres
    rcases hfu : findUser db e.userId with _ | owner <;>
      try simp only [hfu] at hres
    · split_ifs at hres <;> (injection hres with ha hb; exact hb.symm)
    · try dsimp only at hres
      split_ifs at hres <;>
        first
          | (injection hres with ha hb; exact hb.symm)
          | (injection hres with ha hb; exact Option.noConfusion ha)

/-- Witness for the amended claim C2: both implications applied at a concrete
non-pending request, hypotheses discharged by evaluation. -/
theorem claim_C2_amended_witness :
    ((approveLeaveRequest dbTwoStep userSup1 evHospital20 0).2 = evHospital20
      ∨ (LeaveError.notPending = .invalidDuration
         ∧ ((approveLeaveRequest dbTwoStep userSup1 evHospital20 0).2
              = setFirstSlot userSup1 evHospital20
            ∨ (approveLeaveRequest dbTwoStep userSup1 evHospital20 0).2
                = setSecondSlot userSup1 evHospital20
            ∨ (approveLeaveRequest dbTwoStep userSup1 evHospital20 0).2
                = setSecondSlot userSup1 (setFirstSlot userSup1 evHospital20))))
    ∧ (rejectLeaveRequest dbTwoStep userSup1 evHospital20 none 0).2 = evHospital20 :=
  ⟨(claim_C2_amended dbTwoStep userSup1 evHospital20 none 0 .notPending).1 (by decide),
   (claim_C2_amended dbTwoStep userSup1 evHospital20 none 0 .notPending).2 (by decide)⟩

/-! ### Two-step ordering scenario (claim C4) -/

set_option maxHeartbeats 1000000 in
/-- Claim C4: in two-step mode with a valid supervisor first approver and
admin/ceo second approver, on a fresh pending request with a valid duration:
the second approver fails with OrderViolation; the first approver succeeds,
recording the first slot while status stays pending; the second approver then
succeeds, recording the second slot, setting status approved and approved_at. -/
theorem claim_C4 :
    ∀ (db : List UserRec) (e : EventRec) (owner fu su : UserRec) (f s : Int) (now1 now2 : Int),
      findUser db e.userId = some owner →
      owner.requireTwoStepLeaveApproval = true →
      owner.firstApproverId = some f →
      owner.secondApproverId = some s →
      findUser db f = some fu → fu.role = "supervisor" →
      findUser db s = some su → (su.role = "admin" ∨ su.role = "ceo") →
      isExactLeaveType e.type = true →
      e.status = "pending" →
      e.firstApprovedById = none →
      e.secondApprovedById = none →
      validate_leave_request e.startDate e.endDate = true →
      (approveLeaveRequest db su e now1).1 = some .orderViolation
      ∧ approveLeaveRequest db fu e now1
          = (none, setUpdatedAt now1 (setStatusPending (setFirstSlot fu e)))
      ∧ (approveLeaveRequest db fu e now1).2.status = "pending"
      ∧ (approveLeaveRequest db fu e now1).2.firstApprovedById = some f
      ∧ (approveLeaveRequest db su (approveLeaveRequest db fu e now1).2 now2).1 = none
      ∧ (approveLeaveRequest db su (approveLeaveRequest db fu e now1).2 now2).2.status = "approved"
      ∧ (approveLeaveRequest db su (approveLeaveRequest db fu e now1).2 now2).2.secondApprovedById
          = some s
      ∧ (approveLeaveRequest db su (approveLeaveRequest db fu e now1).2 now2).2.approvedAt
          = some now2 := by
  intro db e owner fu su f s now1 now2 hown ht hf hs hfuf hfr hsus hsr htype hstat hslot1 hslot2 hdur
  have hfid : fu.id = f := findUser_id db f fu hfuf
  have hsid : su.id = s := findUser_id db s su hsus
  have hsup : is_supervisor_user db owner.firstApproverId = true := by
    rw [hf]
    simp [is_supervisor_user, hfuf, hfr]
  have hadm : is_admin_user db owner.secondApproverId = true := by
    rw [hs]
    simp [is_admin_user, hsus]
    rcases hsr with h | h <;> simp [h]
  have hfs : f ≠ s := by
    intro hEq
    rw [hEq, hsus] at hfuf
    injection hfuf with hc
    rw [hc] at hsr
    rcases hsr with h | h <;> rw [hfr] at h <;> exact absurd h (by decide)
  have hadml : is_admin_like su.role = true := by
    rcases hsr with h | h <;> rw [h] <;> decide
  have hnc1 : ¬ (owner.firstApproverId = none ∨ owner.secondApproverId = none) := by
    simp [hf, hs]
  have step1 : approveLeaveRequest db su e now1 = (some .orderViolation, e) := by
    unfold approveLeaveRequest
    rw [hown]
    dsimp only
    rw [if_neg (not_not_intro htype), if_neg (not_not_intro hstat), if_pos ht,
        if_neg hnc1, if_neg (not_not_intro hsup), if_neg (not_not_intro hadm),
        if_neg (not_not_intro (Or.inr (by rw [hsid, hs]))),
        if_neg (by
          rintro ⟨hc, -⟩
          rw [hsid, hf] at hc
          exact hfs (Option.some.inj hc).symm),
        if_neg (by
          rintro ⟨-, hc⟩
          exact hc hadml),
        if_pos ⟨by rw [hsid, hs], hslot1⟩]
  have hffid : some fu.id = owner.firstApproverId := by
    rw [hfid, hf]
  have hfsid : ¬ some fu.id = owner.secondApproverId := by
    intro hc
    rw [hfid, hs] at hc
    exact hfs (Option.some.inj hc)
  have step2 : approveLeaveRequest db fu e now1
      = (none, setUpdatedAt now1 (setStatusPending (setFirstSlot fu e))) := by
    unfold approveLeaveRequest
    rw [hown]
    dsimp only
    rw [if_neg (not_not_intro htype), if_neg (not_not_intro hstat), if_pos ht,
        if_neg hnc1, if_neg (not_not_intro hsup), if_neg (not_not_intro hadm),
        if_neg (not_not_intro (Or.inl hffid)),
        if_neg (by
          rintro ⟨-, hc⟩
          exact hc hfr),
        if_neg (by
          rintro ⟨hc, -⟩
          exact hfsid hc),
        if_neg (by
          rintro ⟨hc, -⟩
          exact hfsid hc),
        if_neg (by
          rintro ⟨-, hc⟩
          rw [hslot1] at hc
          simp at hc),
        if_pos hffid]
    rw [if_neg (by
          rintro ⟨hc, -⟩
          exact hfsid hc)]
    rw [if_neg hfsid]
    rw [if_neg (by
          rw [show validate_leave_request (setFirstSlot fu e).startDate
                (setFirstSlot fu e).endDate = true from hdur]
          simp)]
    rw [if_neg (by
          rintro ⟨-, hc⟩
          have h2 : (setFirstSlot fu e).secondApprovedById = none := hslot2
          rw [h2] at hc
          simp at hc)]
  have hmid : (approveLeaveRequest db fu e now1).2
      = setUpdatedAt now1 (setStatusPending (setFirstSlot fu e)) := by
    rw [step2]
  have hmidtype : (setUpdatedAt now1 (setStatusPending (setFirstSlot fu e))).type = e.type := rfl
  have hsfid : ¬ some su.id = owner.firstApproverId := by
    intro hc
    rw [hsid, hf] at hc
    exact hfs (Option.some.inj hc).symm
  have hssid : some su.id = owner.secondApproverId := by
    rw [hsid, hs]
  have step3 : approveLeaveRequest db su
      (setUpdatedAt now1 (setStatusPending (setFirstSlot fu e))) now2
      = (none, setUpdatedAt now2 (markApproved su now2
          (setSecondSlot su (setUpdatedAt now1 (setStatusPending (setFirstSlot fu e)))))) := by
    unfold approveLeaveRequest
    rw [show findUser db (setUpdatedAt now1 (setStatusPending (setFirstSlot fu e))).userId
          = some owner from hown]
    dsimp only
    rw [if_neg (not_not_intro (show isExactLeaveType
          (setUpdatedAt now1 (setStatusPending (setFirstSlot fu e))).type = true from htype)),
        if_neg (show ¬ (setUpdatedAt now1 (setStatusPending (setFirstSlot fu e))).status
          ≠ "pending" from not_not_intro rfl),
        if_pos ht, if_neg hnc1, if_neg (not_not_intro hsup), if_neg (not_not_intro hadm),
        if_neg (not_not_intro (Or.inr hssid)),
        if_neg (by
          rintro ⟨hc, -⟩
          exact hsfid hc),
        if_neg (by
          rintro ⟨-, hc⟩
          exact hc hadml),
        if_neg (by
          rintro ⟨-, hc⟩
          exact Option.noConfusion hc),
        if_neg (by
          rintro ⟨hc, -⟩
          exact hsfid hc),
        if_neg hsfid]
    rw [if_neg (by
          rintro ⟨-, hc⟩
          rw [show (setUpdatedAt now1 (setStatusPending (setFirstSlot fu e))).secondApprovedById
                = none from hslot2] at hc
          simp at hc)]
    rw [if_pos hssid]
    rw [if_neg (by
          rw [show validate_leave_request
                (setSecondSlot su (setUpdatedAt now1 (setStatusPending (setFirstSlot fu e)))).startDate
                (setSecondSlot su (setUpdatedAt now1 (setStatusPending (setFirstSlot fu e)))).endDate
              = true from hdur]
          simp),
        if_pos ⟨rfl, rfl⟩]
  refine ⟨by rw [step1], step2, by rw [step2]; rfl, ?_, ?_, ?_, ?_, ?_⟩
  · rw [step2]
    show (setFirstSlot fu e).firstApprovedById = some f
    rw [show (setFirstSlot fu e).firstApprovedById = some fu.id from rfl, hfid]
  · rw [hmid, step3]
  · rw [hmid, step3]
    rfl
  · rw [hmid, step3]
    show some su.id = some s
    rw [hsid]
  · rw [hmid, step3]
    rfl

/-- Witness for claim C4: the scenario at concrete users 1 (supervisor), 2
(admin) and owner 3, hypotheses discharged by evaluation. -/
theorem claim_C4_witness :
    (approveLeaveRequest dbTwoStep userAdm2 evPending10 7).1 = some .orderViolation
    ∧ approveLeaveRequest dbTwoStep userSup1 evPending10 7
        = (none, setUpdatedAt 7 (setStatusPending (setFirstSlot userSup1 evPending10)))
    ∧ (approveLeaveRequest dbTwoStep userSup1 evPending10 7).2.status = "pending"
    ∧ (approveLeaveRequest dbTwoStep userSup1 evPending10 7).2.firstApprovedById = some 1
    ∧ (approveLeaveRequest dbTwoStep userAdm2
        (approveLeaveRequest dbTwoStep userSup1 evPending10 7).2 8).1 = none
    ∧ (approveLeaveRequest dbTwoStep userAdm2
        (approveLeaveRequest dbTwoStep userSup1 evPending10 7).2 8).2.status = "approved"
    ∧ (approveLeaveRequest dbTwoStep userAdm2
        (approveLeaveRequest dbTwoStep userSup1 evPending10 7).2 8).2.secondApprovedById = some 2
    ∧ (approveLeaveRequest dbTwoStep userAdm2
        (approveLeaveRequest dbTwoStep userSup1 evPending10 7).2 8).2.approvedAt = some 8 :=
  claim_C4 dbTwoStep evPending10 userOwn3 userSup1 userAdm2 1 2 7 8 (by decide) rfl rfl rfl
    (by decide) rfl (by decide) (Or.inl rfl) (by decide) rfl rfl rfl (by decide)

/-! ### Permission/endpoint equivalence (claim C3) -/

/-- Helper for claim C3: on a pending exact-typed request with a resolvable
owner and a valid duration, the non-mutating can-approve flag is true exactly
when the approve endpoint raises no error. -/
theorem approve_perm_iff :
    ∀ (db : List UserRec) (current : UserRec) (e : EventRec) (owner : UserRec),
      (e.type = "Leave" ∨ e.type = "Hospital") →
      e.status = "pending" →
      findUser db e.userId = some owner →
      validate_leave_request e.startDate e.endDate = true →
      (((computeLeaveReviewPermissions db current e owner).1 = true)
        ↔ ((approveLeaveRequest db current e 0).1 = none)) := by
  intro db current e owner htype hstatus hown hdur
  have htypeExact : isExactLeaveType e.type = true := by
    rcases htype with h | h <;> rw [h] <;> decide
  have hleave : is_leave_like_type e.type = true := by
    rcases htype with h | h <;> rw [h] <;> decide
  have hguard : ¬ (¬ is_leave_like_type e.type = true ∨ pyLower (pyStrip e.status) ≠ "pending") := by
    rw [hleave, hstatus]
    decide
  rcases hres : approveLeaveRequest db current e 0 with ⟨out, e2⟩
  show (computeLeaveReviewPermissions db current e owner).1 = true ↔ out = none
  unfold approveLeaveRequest at hres
  rw [hown] at hres
  dsimp only at hres
  rw [if_neg (not_not_intro htypeExact), if_neg (not_not_intro hstatus)] at hres
  unfold computeLeaveReviewPermissions
  rw [if_neg hguard]
  dsimp only
  by_cases ht : owner.requireTwoStepLeaveApproval = true
  · rw [if_pos ht] at hres ⊢
    by_cases hn : owner.firstApproverId = none ∨ owner.secondApproverId = none
    · rw [if_pos hn] at hres ⊢
      injection hres with ha hb
      rw [← ha]
      simp
    · rw [if_neg hn] at hres ⊢
      by_cases hsup : is_supervisor_user db owner.firstApproverId = true
      · rw [if_neg (not_not_intro hsup)] at hres ⊢
        by_cases hadm : is_admin_user db owner.secondApproverId = true
        · rw [if_neg (not_not_intro hadm)] at hres ⊢
          have hdist : owner.firstApproverId ≠ owner.secondApproverId := by
            intro hEq
            rw [hEq] at hsup
            exact supervisor_not_admin db owner.secondApproverId hsup hadm
          by_cases m1 : some current.id = owner.firstApproverId
          · have hm2 : ¬ some current.id = owner.secondApproverId := by
              intro hc
              exact hdist (m1.symm.trans hc)
            rw [if_neg (not_not_intro (Or.inl m1))] at hres
            by_cases r1 : current.role = "supervisor"
            · rw [if_pos ⟨m1, r1⟩]
              rw [if_neg (by
                    rintro ⟨-, hc⟩
                    exact hc r1),
                  if_neg (by
                    rintro ⟨hc, -⟩
                    exact hm2 hc),
                  if_neg (by
                    rintro ⟨hc, -⟩
                    exact hm2 hc)] at hres
              by_cases q1 : e.firstApprovedById.isSome = true
              · rw [if_pos ⟨m1, q1⟩] at hres
                injection hres with ha hb
                rw [← ha]
                rcases hx : e.firstApprovedById with _ | v
                · rw [hx] at q1
                  simp at q1
                · simp
              · rw [if_neg (by
                      rintro ⟨-, hc⟩
                      exact q1 hc),
                    if_pos m1] at hres
                rw [if_neg (by
                      rintro ⟨hc, -⟩
                      exact hm2 hc)] at hres
                rw [if_neg hm2] at hres
                rw [if_neg (by
                      rw [show validate_leave_request (setFirstSlot current e).startDate
                            (setFirstSlot current e).endDate = true from hdur]
                      simp)] at hres
                injection hres with ha hb
                rw [← ha]
                rcases hx : e.firstApprovedById with _ | v
                · simp
                · rw [hx] at q1
                  simp at q1
            · rw [if_neg (by
                    rintro ⟨-, hc⟩
                    exact r1 hc),
                  if_neg (by
                    rintro ⟨hc, -⟩
                    exact hm2 hc)]
              rw [if_pos ⟨m1, fun hc => r1 hc⟩] at hres
              injection hres with ha hb
              rw [← ha]
              simp
          · rw [if_neg (by
                  rintro ⟨hc, -⟩
                  exact m1 hc)]
            by_cases m2 : some current.id = owner.secondApproverId
            · rw [if_neg (not_not_intro (Or.inr m2))] at hres
              rw [if_neg (by
                    rintro ⟨hc, -⟩
                    exact m1 hc)] at hres
              by_cases r2 : is_admin_like current.role = true
              · rw [if_pos ⟨m2, r2⟩]
                rw [if_neg (by
                      rintro ⟨-, hc⟩
                      exact hc r2)] at hres
                rcases hx : e.firstApprovedById with _ | v
                · rw [if_pos ⟨m2, hx⟩] at hres
                  injection hres with ha hb
                  rw [← ha]
                  simp
                · rw [if_neg (by
                        rintro ⟨-, hc⟩
                        rw [hx] at hc
                        exact Option.noConfusion hc),
                      if_neg (by
                        rintro ⟨hc, -⟩
                        exact m1 hc),
                      if_neg m1] at hres
                  by_cases q2 : e.secondApprovedById.isSome = true
                  · rw [if_pos ⟨m2, q2⟩] at hres
                    injection hres with ha hb
                    rw [← ha]
                    rcases hy : e.secondApprovedById with _ | w
                    · rw [hy] at q2
                      simp at q2
                    · simp
                  · rw [if_neg (by
                          rintro ⟨-, hc⟩
                          exact q2 hc),
                        if_pos m2] at hres
                    rw [if_neg (by
                          rw [show validate_leave_request (setSecondSlot current e).startDate
                                (setSecondSlot current e).endDate = true from hdur]
                          simp)] at hres
                    injection hres with ha hb
                    rw [← ha]
                    rcases hy : e.secondApprovedById with _ | w
                    · simp
                    · rw [hy] at q2
                      simp at q2
              · rw [if_neg (by
                      rintro ⟨-, hc⟩
                      exact r2 hc)]
                rw [if_pos ⟨m2, fun hc => r2 hc⟩] at hres
                injection hres with ha hb
                rw [← ha]
                simp
            · rw [if_neg (by
                    rintro ⟨hc, -⟩
                    exact m2 hc)]
              rw [if_pos (by
                    rintro (hc | hc)
                    · exact m1 hc
                    · exact m2 hc)] at hres
              injection hres with ha hb
              rw [← ha]
              simp
        · rw [if_pos hadm] at hres ⊢
          injection hres with ha hb
          rw [← ha]
          simp
      · rw [if_pos hsup] at hres ⊢
        injection hres with ha hb
        rw [← ha]
        simp
  · rw [if_neg ht] at hres ⊢
    by_cases hD : designated_approvers db owner.firstApproverId owner.secondApproverId = []
    · rw [if_neg (by
            rintro ⟨hc, -⟩
            exact hc hD),
          if_neg (by
            rintro ⟨hc, -⟩
            exact hc hD),
          if_neg (by
            rintro ⟨hc, -⟩
            exact hc hD),
          if_neg (not_not_intro hdur),
          if_neg (by
            rintro ⟨hc, -⟩
            exact hc hD)] at hres
      rw [if_neg (not_not_intro hD)]
      by_cases r2 : is_admin_like current.role = true
      · rw [if_neg (by
              rintro ⟨-, hc⟩
              exact hc r2)] at hres
        injection hres with ha hb
        rw [← ha, r2]
        simp
      · rw [if_pos ⟨hD, fun hc => r2 hc⟩] at hres
        injection hres with ha hb
        rw [← ha]
        constructor
        · intro hc
          exact absurd hc r2
        · intro hc
          simp at hc
    · rw [if_pos hD]
      by_cases hmem : (designated_approvers db owner.firstApproverId owner.secondApproverId).contains current.id = true
      · rw [if_neg (by
              rintro ⟨-, hc⟩
              exact hc hmem)] at hres
        rw [if_neg (not_not_intro hmem)]
        by_cases c5 : some current.id = owner.firstApproverId ∧ current.role ≠ "supervisor"
        · rw [if_pos c5]
          rw [if_pos ⟨hD, c5⟩] at hres
          injection hres with ha hb
          rw [← ha]
          simp
        · rw [if_neg c5]
          rw [if_neg (by
                rintro ⟨-, hc⟩
                exact c5 hc)] at hres
          by_cases c6 : some current.id = owner.secondApproverId ∧ ¬ is_admin_like current.role = true
          · rw [if_pos c6]
            rw [if_pos ⟨hD, c6⟩] at hres
            injection hres with ha hb
            rw [← ha]
            simp
          · rw [if_neg c6]
            rw [if_neg (by
                  rintro ⟨-, hc⟩
                  exact c6 hc)] at hres
            rw [if_neg (not_not_intro hdur)] at hres
            rw [if_neg (by
                  rintro ⟨-, hc⟩
                  exact hc hmem)] at hres
            rw [if_neg (by
                  rintro ⟨hc, -⟩
                  exact hD hc)] at hres
            injection hres with ha hb
            rw [← ha]
            simp
      · rw [if_pos ⟨hD, fun hc => hmem hc⟩] at hres
        rw [if_pos (fun hc => hmem hc)]
        injection hres with ha hb
        rw [← ha]
        simp

theorem reject_perm_iff :
    ∀ (db : List UserRec) (current : UserRec) (e : EventRec) (owner : UserRec),
      (e.type = "Leave" ∨ e.type = "Hospital") →
      e.status = "pending" →
      findUser db e.userId = some owner →
      (owner.requireTwoStepLeaveApproval = true →
        is_supervisor_user db owner.firstApproverId = true
        ∧ is_admin_user db owner.secondApproverId = true) →
      (((computeLeaveReviewPermissions db current e owner).2 = true)
        ↔ ((rejectLeaveRequest db current e none 0).1 = none)) := by
  intro db current e owner htype hstatus hown hsetup
  have htypeExact : isExactLeaveType e.type = true := by
    rcases htype with h | h <;> rw [h] <;> decide
  have hleave : is_leave_like_type e.type = true := by
    rcases htype with h | h <;> rw [h] <;> decide
  have hguard : ¬ (¬ is_leave_like_type e.type = true ∨ pyLower (pyStrip e.status) ≠ "pending") := by
    rw [hleave, hstatus]
    decide
  rcases hres : rejectLeaveRequest db current e none 0 with ⟨out, e2⟩
  show (computeLeaveReviewPermissions db current e owner).2 = true ↔ out = none
  unfold rejectLeaveRequest at hres
  rw [hown] at hres
  dsimp only at hres
  rw [if_neg (not_not_intro htypeExact), if_neg (not_not_intro hstatus)] at hres
  unfold computeLeaveReviewPermissions
  rw [if_neg hguard]
  dsimp only
  by_cases ht : owner.requireTwoStepLeaveApproval = true
  · rw [if_pos ht] at hres ⊢
    obtain ⟨hsup, hadm⟩ := hsetup ht
    have hn : ¬ (owner.firstApproverId = none ∨ owner.secondApproverId = none) := by
      rintro (hc | hc)
      · rw [hc] at hsup
        simp [is_supervisor_user] at hsup
      · rw [hc] at hadm
        simp [is_admin_user] at hadm
    rw [if_neg hn, if_neg (not_not_intro hsup), if_neg (not_not_intro hadm)]
    have hdist : owner.firstApproverId ≠ owner.secondApproverId := by
      intro hEq
      rw [hEq] at hsup
      exact supervisor_not_admin db owner.secondApproverId hsup hadm
    by_cases m1 : some current.id = owner.firstApproverId
    · have hm2 : ¬ some current.id = owner.secondApproverId := by
        intro hc
        exact hdist (m1.symm.trans hc)
      rw [if_neg (not_not_intro (Or.inl m1))] at hres
      by_cases r1 : current.role = "supervisor"
      · rw [if_pos ⟨m1, r1⟩]
        rw [if_neg (by
              rintro ⟨-, hc⟩
              exact hc r1),
            if_neg (by
              rintro ⟨hc, -⟩
              exact hm2 hc)] at hres
        injection hres with ha hb
        rw [← ha]
        simp
      · rw [if_neg (by
              rintro ⟨-, hc⟩
              exact r1 hc),
            if_neg (by
              rintro ⟨hc, -⟩
              exact hm2 hc)]
        rw [if_pos ⟨m1, fun hc => r1 hc⟩] at hres
        injection hres with ha hb
        rw [← ha]
        simp
    · rw [if_neg (by
            rintro ⟨hc, -⟩
            exact m1 hc)]
      by_cases m2 : some current.id = owner.secondApproverId
      · rw [if_neg (not_not_intro (Or.inr m2))] at hres
        rw [if_neg (by
              rintro ⟨hc, -⟩
              exact m1 hc)] at hres
        by_cases r2 : is_admin_like current.role = true
        · rw [if_pos ⟨m2, r2⟩]
          rw [if_neg (by
                rintro ⟨-, hc⟩
                exact hc r2)] at hres
          injection hres with ha hb
          rw [← ha]
          simp
        · rw [if_neg (by
                rintro ⟨-, hc⟩
                exact r2 hc)]
          rw [if_pos ⟨m2, fun hc => r2 hc⟩] at hres
          injection hres with ha hb
          rw [← ha]
          simp
      · rw [if_neg (by
              rintro ⟨hc, -⟩
              exact m2 hc)]
        rw [if_pos (by
              rintro (hc | hc)
              · exact m1 hc
              · exact m2 hc)] at hres
        injection hres with ha hb
        rw [← ha]
        simp
  · rw [if_neg ht] at hres ⊢
    by_cases hD : designated_approvers db owner.firstApproverId owner.secondApproverId = []
    · rw [if_neg (by
            rintro ⟨hc, -⟩
            exact hc hD),
          if_neg (by
            rintro ⟨hc, -⟩
            exact hc hD),
          if_neg (by
            rintro ⟨hc, -⟩
            exact hc hD)] at hres
      rw [if_neg (not_not_intro hD)]
      by_cases r2 : is_admin_like current.role = true
      · rw [if_neg (by
              rintro ⟨-, hc⟩
              exact hc r2)] at hres
        injection hres with ha hb
        rw [← ha, r2]
        simp
      · rw [if_pos ⟨hD, fun hc => r2 hc⟩] at hres
        injection hres with ha hb
        rw [← ha]
        constructor
        · intro hc
          exact absurd hc r2
        · intro hc
          simp at hc
    · rw [if_pos hD]
      by_cases hmem : (designated_approvers db owner.firstApproverId owner.secondApproverId).contains current.id = true
      · rw [if_neg (by
              rintro ⟨-, hc⟩
              exact hc hmem)] at hres
        rw [if_neg (not_not_intro hmem)]
        by_cases c5 : some current.id = owner.firstApproverId ∧ current.role ≠ "supervisor"
        · rw [if_pos c5]
          rw [if_pos ⟨hD, c5⟩] at hres
          injection hres with ha hb
          rw [← ha]
          simp
        · rw [if_neg c5]
          rw [if_neg (by
                rintro ⟨-, hc⟩
                exact c5 hc)] at hres
          by_cases c6 : some current.id = owner.secondApproverId ∧ ¬ is_admin_like current.role = true
          · rw [if_pos c6]
            rw [if_pos ⟨hD, c6⟩] at hres
            injection hres with ha hb
            rw [← ha]
            simp
          · rw [if_neg c6]
            rw [if_neg (by
                  rintro ⟨-, hc⟩
                  exact c6 hc)] at hres
            rw [if_neg (by
                  rintro ⟨hc, -⟩
                  exact hD hc)] at hres
            injection hres with ha hb
            rw [← ha]
            simp
      · rw [if_pos ⟨hD, fun hc => hmem hc⟩] at hres
        rw [if_pos (fun hc => hmem hc)]
        injection hres with ha hb
        rw [← ha]
        simp


/-- Counterexample to claim C3 as stated: with a broken two-step setup (no
first approver configured), the non-mutating permission pair reports
can_reject = false, yet the reject endpoint passes all its checks for the
admin reviewer, because the reject path never re-checks the two-step setup. -/
theorem claim_C3_counterexample :
    (computeLeaveReviewPermissions dbBrokenSetup userAdm2 evPending12 userOwn4).2 = false
    ∧ (rejectLeaveRequest dbBrokenSetup userAdm2 evPending12 none 0).1 = none := by
  decide

/-- Claim C3 (amended: the reject-side equivalence additionally requires the
owner's two-step approval setup, when enabled, to be valid, since the reject
endpoint does not re-check it): for every pending request of exact type Leave
or Hospital with a resolvable owner, can_approve is true exactly when the
approve endpoint raises no error (given a valid duration), and can_reject is
true exactly when the reject endpoint raises no error (given a valid setup). -/
theorem claim_C3_amended :
    ∀ (db : List UserRec) (current : UserRec) (e : EventRec) (owner : UserRec),
      (e.type = "Leave" ∨ e.type = "Hospital") →
      e.status = "pending" →
      findUser db e.userId = some owner →
      (validate_leave_request e.startDate e.endDate = true →
        (((computeLeaveReviewPermissions db current e owner).1 = true)
          ↔ ((approveLeaveRequest db current e 0).1 = none)))
      ∧ ((owner.requireTwoStepLeaveApproval = true →
            is_supervisor_user db owner.firstApproverId = true
            ∧ is_admin_user db owner.secondApproverId = true) →
          (((computeLeaveReviewPermissions db current e owner).2 = true)
            ↔ ((rejectLeaveRequest db current e none 0).1 = none))) := by
  intro db current e owner htype hstatus hown
  exact ⟨fun hdur => approve_perm_iff db current e owner htype hstatus hown hdur,
         fun hsetup => reject_perm_iff db current e owner htype hstatus hown hsetup⟩

/-- Witness for the amended claim C3: both equivalences at a concrete
two-step configuration, hypotheses discharged by evaluation. -/
theorem claim_C3_amended_witness :
    (((computeLeaveReviewPermissions dbTwoStep userSup1 evPending10 userOwn3).1 = true)
      ↔ ((approveLeaveRequest dbTwoStep userSup1 evPending10 0).1 = none))
    ∧ (((computeLeaveReviewPermissions dbTwoStep userSup1 evPending10 userOwn3).2 = true)
      ↔ ((rejectLeaveRequest dbTwoStep userSup1 evPending10 none 0).1 = none)) :=
  ⟨(claim_C3_amended dbTwoStep userSup1 evPending10 userOwn3 (Or.inl rfl) rfl
      (by decide)).1 (by decide),
   (claim_C3_amended dbTwoStep userSup1 evPending10 userOwn3 (Or.inl rfl) rfl
      (by decide)).2 (by decide)⟩

end LeaveEngine
